import Mathlib

/-!
# Tandem two-station queueing simulation (`Assignment 1/mm2alt.c`)

A shallow embedding of the discrete-event simulation in `mm2alt.c`.

Modelling conventions:
* the C globals become the fields of `State`;
* `float` values are exact rationals (`ℚ`), so `1.0e+30` is `10^30` and
  `1.0e+29` is `10^29`; rounding is not modelled;
* `int` values are unbounded `Int` (no counter of the program comes near
  the limits of a machine `int` inside the bounds the theorems assume);
* the arrays `time_arrival1`, `time_arrival2`, `time_next_event` are total
  maps from an `Int` index to `ℚ`;
* `exit(1)` / `exit(2)` become the `Except` errors `Abort.event_list_empty`
  and `Abort.queue_overflow`;
* `lcgrand` and `log` are external: the state carries the stream of the
  values `log(lcgrand(1))` that the successive calls of `expon` obtain;
* the text written to `outfile` is not part of the state.
-/

namespace MM2Alt

/-- The constant `#define Q_LIMIT 2500`. -/
def Q_LIMIT : Int := 2500

/-- The constant `#define BUSY 1`. -/
def BUSY : Int := 1

/-- The constant `#define IDLE 0`. -/
def IDLE : Int := 0

/-- The literal `1.0e+30` that the source stores in `time_next_event` for an
event kind that is not scheduled. -/
def TIME_UNSCHEDULED : ℚ := 10 ^ 30

/-- The literal `1.0e+29` that `timing` starts its running minimum from. -/
def TIME_LIMIT : ℚ := 10 ^ 29

/-- The two ways the program stops early: `exit(1)` in `timing` and `exit(2)`
in `arrive` / `second_arrive`. -/
inductive Abort where
  | event_list_empty
  | queue_overflow
  deriving DecidableEq, Repr

/-- The global variables of `mm2alt.c`, and the stream `log_lcgrand` of the
values `log(lcgrand(1))` still to be drawn. -/
structure State where
  next_event_type : Int
  num_custs_delayed : Int
  num_events : Int
  num_in_q1 : Int
  num_in_q2 : Int
  server1_status : Int
  server2_status : Int
  area_num_in_q1 : ℚ
  area_num_in_q2 : ℚ
  area_server1_status : ℚ
  area_server2_status : ℚ
  mean_interarrival : ℚ
  mean_service1 : ℚ
  mean_service2 : ℚ
  sim_time : ℚ
  time_arrival1 : Int → ℚ
  time_arrival2 : Int → ℚ
  time_end : ℚ
  time_last_event : ℚ
  time_next_event : Int → ℚ
  total_of_delays1 : ℚ
  total_of_delays2 : ℚ
  log_lcgrand : Nat → ℚ

/-- The function `float expon(float mean)`: `return -mean * log(lcgrand(1));`.  The value
of `log(lcgrand(1))` is the head of the stream, which the call consumes. -/
def expon (mean : ℚ) (s : State) : ℚ × State :=
  (-mean * s.log_lcgrand 0, { s with log_lcgrand := fun n => s.log_lcgrand (n + 1) })

/-- The function `initialize` of the source (the name is reserved in Lean). -/
def initializeSim (s : State) : State :=
  let s := { s with sim_time := 0 }
  let s := { s with server1_status := IDLE }
  let s := { s with server2_status := IDLE }
  let s := { s with num_in_q1 := 0 }
  let s := { s with num_in_q2 := 0 }
  let s := { s with time_last_event := 0 }
  let s := { s with num_custs_delayed := 0 }
  let s := { s with total_of_delays1 := 0 }
  let s := { s with total_of_delays2 := 0 }
  let s := { s with area_num_in_q1 := 0 }
  let s := { s with area_num_in_q2 := 0 }
  let s := { s with area_server1_status := 0 }
  let s := { s with area_server2_status := 0 }
  let (e, s) := expon s.mean_interarrival s
  let s := { s with time_next_event := Function.update s.time_next_event 1 (s.sim_time + e) }
  let s := { s with time_next_event := Function.update s.time_next_event 2 TIME_UNSCHEDULED }
  let s := { s with time_next_event := Function.update s.time_next_event 3 TIME_UNSCHEDULED }
  let s := { s with time_next_event := Function.update s.time_next_event 4 TIME_UNSCHEDULED }
  { s with time_next_event := Function.update s.time_next_event 5 s.time_end }

/-- The scan of `timing`: `k` further iterations of
`for (...; ++i) if (time_next_event[i] < min_time_next_event) { ... }`
from index `i`, on the pair `(min_time_next_event, next_event_type)`. -/
def timing_loop (tne : Int → ℚ) : Nat → Int → ℚ × Int → ℚ × Int
  | 0, _, acc => acc
  | k + 1, i, acc =>
      timing_loop tne k (i + 1) (if tne i < acc.1 then (tne i, i) else acc)

/-- The function `void timing(void)`: the loop runs for `i = 1 .. num_events`. -/
def timing (s : State) : Except Abort State :=
  let r := timing_loop s.time_next_event s.num_events.toNat 1 (TIME_LIMIT, 0)
  if r.2 = 0 then
    .error .event_list_empty
  else
    .ok { s with next_event_type := r.2, sim_time := r.1 }

/-- The function `void arrive(void)`. -/
def arrive (s : State) : Except Abort State :=
  let (e, s) := expon s.mean_interarrival s
  let s := { s with time_next_event := Function.update s.time_next_event 1 (s.sim_time + e) }
  if s.server1_status = BUSY then
    let s := { s with num_in_q1 := s.num_in_q1 + 1 }
    if s.num_in_q1 > Q_LIMIT then
      .error .queue_overflow
    else
      .ok { s with time_arrival1 := Function.update s.time_arrival1 s.num_in_q1 s.sim_time }
  else
    let delay : ℚ := 0
    let s := { s with total_of_delays1 := s.total_of_delays1 + delay }
    let s := { s with num_custs_delayed := s.num_custs_delayed + 1 }
    let s := { s with server1_status := BUSY }
    let (e, s) := expon s.mean_service1 s
    .ok { s with time_next_event := Function.update s.time_next_event 3 (s.sim_time + e) }

/-- The function `void second_arrive(void)`. -/
def second_arrive (s : State) : Except Abort State :=
  if s.server2_status = BUSY then
    let s := { s with num_in_q2 := s.num_in_q2 + 1 }
    if s.num_in_q2 > Q_LIMIT then
      .error .queue_overflow
    else
      .ok { s with time_arrival2 := Function.update s.time_arrival2 s.num_in_q2 (s.time_arrival1 0) }
  else
    let delay : ℚ := 0
    let s := { s with total_of_delays2 := s.total_of_delays2 + delay }
    let s := { s with num_custs_delayed := s.num_custs_delayed + 1 }
    let s := { s with server2_status := BUSY }
    let (e, s) := expon s.mean_service2 s
    .ok { s with time_next_event := Function.update s.time_next_event 4 (s.sim_time + e) }

/-- The loop `for (...; ++i) a[i] = a[i + 1];`: `k` further iterations from
index `i`. -/
def shift_loop (a : Int → ℚ) : Nat → Int → Int → ℚ
  | 0, _ => a
  | k + 1, i => shift_loop (Function.update a i (a (i + 1))) k (i + 1)

/-- The function `void depart(void)`.  The shift loop runs for `i = 0 .. num_in_q1`. -/
def depart (s : State) : Except Abort State :=
  if s.num_in_q1 = 0 then
    let s := { s with server1_status := IDLE }
    .ok { s with time_next_event := Function.update s.time_next_event 3 TIME_UNSCHEDULED }
  else
    let s := { s with num_in_q1 := s.num_in_q1 - 1 }
    let delay : ℚ := s.sim_time - s.time_arrival1 1
    let s := { s with total_of_delays1 := s.total_of_delays1 + delay }
    let s := { s with time_arrival2 := Function.update s.time_arrival2 s.num_in_q2 (s.time_arrival1 1) }
    let s := { s with num_custs_delayed := s.num_custs_delayed + 1 }
    let (e, s) := expon s.mean_service1 s
    let s := { s with time_next_event := Function.update s.time_next_event 3 (s.sim_time + e) }
    let s := { s with time_arrival1 := shift_loop s.time_arrival1 (s.num_in_q1 + 1).toNat 0 }
    second_arrive s

/-- The function `void second_depart(void)`.  The shift loop runs for `i = 1 .. num_in_q2`. -/
def second_depart (s : State) : State :=
  if s.num_in_q2 = 0 then
    let s := { s with server2_status := IDLE }
    { s with time_next_event := Function.update s.time_next_event 4 TIME_UNSCHEDULED }
  else
    let s := { s with num_in_q2 := s.num_in_q2 - 1 }
    let delay : ℚ := s.sim_time - s.time_arrival2 1
    let s := { s with total_of_delays2 := s.total_of_delays2 + delay }
    let s := { s with num_custs_delayed := s.num_custs_delayed + 1 }
    let (e, s) := expon s.mean_service2 s
    let s := { s with time_next_event := Function.update s.time_next_event 4 (s.sim_time + e) }
    { s with time_arrival2 := shift_loop s.time_arrival2 s.num_in_q2.toNat 1 }

/-- The function `void report(void)`: it only writes to `outfile`; no global changes. -/
def report (s : State) : State := s

/-- The function `void update_time_avg_stats(void)`. -/
def update_time_avg_stats (s : State) : State :=
  let time_since_last_event : ℚ := s.sim_time - s.time_last_event
  let s := { s with time_last_event := s.sim_time }
  let s := { s with area_num_in_q1 := s.area_num_in_q1 + s.num_in_q1 * time_since_last_event }
  let s := { s with area_num_in_q2 := s.area_num_in_q2 + s.num_in_q2 * time_since_last_event }
  let s := { s with
    area_server1_status := s.area_server1_status + s.server1_status * time_since_last_event }
  { s with
    area_server2_status := s.area_server2_status + s.server2_status * time_since_last_event }

/-- The `switch (next_event_type)` of `main`; it has no `default` case. -/
def dispatch (s : State) : Except Abort State :=
  if s.next_event_type = 1 then arrive s
  else if s.next_event_type = 2 then second_arrive s
  else if s.next_event_type = 3 then depart s
  else if s.next_event_type = 4 then .ok (second_depart s)
  else if s.next_event_type = 5 then .ok (report s)
  else .ok s

/-- One pass through the body of the `do ... while (next_event_type != 5)`
loop of `main`: `timing(); update_time_avg_stats(); switch ...`. -/
def main_loop_body (s : State) : Except Abort State :=
  match timing s with
  | .error e => .error e
  | .ok t => dispatch (update_time_avg_stats t)

/-- The states at the head of the `do ... while` loop in a replication that
`main` starts from the state `s0` (left by whatever ran before, with
`num_events = 5` as `main` has set it): the state `initializeSim` produces, and
every state a pass through the loop body produces from a loop-head state
without the loop ending (`next_event_type != 5`). -/
inductive LoopHead (s0 : State) : State → Prop where
  | init : s0.num_events = 5 → LoopHead s0 (initializeSim s0)
  | step {s t : State} : LoopHead s0 s → main_loop_body s = .ok t →
      t.next_event_type ≠ 5 → LoopHead s0 t

/-- A state for examples: the means 1, 1/2, 3/10 and the run length 1000 of
the input file, every `log(lcgrand(1))` equal to `-1`, all else zero. -/
def exampleStart : State where
  next_event_type := 0
  num_custs_delayed := 0
  num_events := 5
  num_in_q1 := 0
  num_in_q2 := 0
  server1_status := 0
  server2_status := 0
  area_num_in_q1 := 0
  area_num_in_q2 := 0
  area_server1_status := 0
  area_server2_status := 0
  mean_interarrival := 1
  mean_service1 := 1 / 2
  mean_service2 := 3 / 10
  sim_time := 0
  time_arrival1 := fun _ => 0
  time_arrival2 := fun _ => 0
  time_end := 1000
  time_last_event := 0
  time_next_event := fun _ => 0
  total_of_delays1 := 0
  total_of_delays2 := 0
  log_lcgrand := fun _ => -1

/-- A calendar whose only entry other than `1.0e+30` is Arrival1, at
`1.0e+29`. -/
def lateArrivalState : State :=
  { exampleStart with
    time_next_event := fun i => if i = 1 then 10 ^ 29 else 10 ^ 30 }

/-- A calendar with Departure1 and Departure2 tied at time 4, ahead of
Arrival1 at 7 and EndOfRun at 1000. -/
def tiedDeparturesState : State :=
  { exampleStart with
    time_next_event := fun i =>
      if i = 1 then 7 else if i = 3 then 4 else if i = 4 then 4 else if i = 5 then 1000
      else 10 ^ 30 }

/-- A state at a Departure1 event at time 7: one customer waits at station 1
(arrived at 6); station 2 is busy and one customer waits there (forwarded
with the station-1 arrival time 5). -/
def bothQueuedState : State :=
  { exampleStart with
    sim_time := 7
    time_last_event := 7
    next_event_type := 3
    server1_status := BUSY
    server2_status := BUSY
    num_in_q1 := 1
    num_in_q2 := 1
    num_custs_delayed := 4
    time_arrival1 := fun i => if i = 1 then 6 else 0
    time_arrival2 := fun i => if i = 1 then 5 else 0
    time_next_event := fun i =>
      if i = 1 then 9 else if i = 3 then 7 else if i = 4 then 8 else if i = 5 then 1000
      else 10 ^ 30 }

/-- A state with station 1 busy and two customers waiting there (arrived at
3 and 4), at an Arrival1 event at time 5. -/
def busyArrivalState : State :=
  { exampleStart with
    sim_time := 5
    time_last_event := 5
    next_event_type := 1
    server1_status := BUSY
    num_in_q1 := 2
    num_custs_delayed := 1
    time_arrival1 := fun i => if i = 1 then 3 else if i = 2 then 4 else 0
    time_next_event := fun i =>
      if i = 1 then 5 else if i = 3 then 6 else if i = 5 then 1000 else 10 ^ 30 }

/-- A state at a Departure1 event at time 7 in which one customer waits at
station 1 while station 2 is busy and its queue holds `Q_LIMIT` customers. -/
def fullSecondQueueState : State :=
  { bothQueuedState with num_in_q2 := 2500 }

/-- A state at a Departure2 event at time 9: station 2 is busy and three
customers wait there, with the timestamps 2, 3 and 5. -/
def secondDepartureState : State :=
  { exampleStart with
    sim_time := 9
    time_last_event := 9
    next_event_type := 4
    server1_status := BUSY
    server2_status := BUSY
    num_in_q2 := 3
    num_custs_delayed := 5
    time_arrival2 := fun i => if i = 1 then 2 else if i = 2 then 3 else if i = 3 then 5 else 0
    time_next_event := fun i =>
      if i = 1 then 12 else if i = 3 then 10 else if i = 4 then 9 else if i = 5 then 1000
      else 10 ^ 30 }

/-- A state at a Departure2 event at time 9 with station 2 busy and nobody
waiting there. -/
def lastDepartureState : State :=
  { secondDepartureState with num_in_q2 := 0 }

/-- Both queue lengths lie in `0 .. Q_LIMIT`. -/
def QueueBounds (s : State) : Prop :=
  0 ≤ s.num_in_q1 ∧ s.num_in_q1 ≤ Q_LIMIT ∧ 0 ≤ s.num_in_q2 ∧ s.num_in_q2 ≤ Q_LIMIT

/-- The input a replication is meant to run on: strictly positive means and
run length, and every uniform draw in `(0, 1)`, that is every value of
`log(lcgrand(1))` negative. -/
def PositiveInput (s : State) : Prop :=
  0 < s.mean_interarrival ∧ 0 < s.mean_service1 ∧ 0 < s.mean_service2 ∧ 0 < s.time_end ∧
  ∀ n, s.log_lcgrand n < 0

/-- What holds at every loop head whatever the input: `main` has set
`num_events = 5`, the last-event marker has caught up with the clock, and the
queue lengths are in range. -/
def LoopInv (s : State) : Prop :=
  s.num_events = 5 ∧ s.time_last_event = s.sim_time ∧ QueueBounds s

/-- No entry of the event list lies before the clock (and the clock is not
beyond the `1.0e+30` sentinel), on positive input. -/
def Sched (s : State) : Prop :=
  PositiveInput s ∧ s.sim_time ≤ TIME_UNSCHEDULED ∧
  ∀ i, 1 ≤ i → i ≤ 5 → s.sim_time ≤ s.time_next_event i

/-- The state `depart` passes to `second_arrive` when station 1's queue is not
empty: the statements of the `else` branch before the call. -/
def depart_station1 (s : State) : State :=
  { s with
    num_in_q1 := s.num_in_q1 - 1
    total_of_delays1 := s.total_of_delays1 + (s.sim_time - s.time_arrival1 1)
    time_arrival2 := Function.update s.time_arrival2 s.num_in_q2 (s.time_arrival1 1)
    num_custs_delayed := s.num_custs_delayed + 1
    log_lcgrand := fun n => s.log_lcgrand (n + 1)
    time_next_event :=
      Function.update s.time_next_event 3 (s.sim_time + -s.mean_service1 * s.log_lcgrand 0)
    time_arrival1 := shift_loop s.time_arrival1 (s.num_in_q1 - 1 + 1).toNat 0 }

/-- The result of `n` passes through the body of the `do ... while` loop, none
of which ends the loop or stops the program: the `n`-th loop head after `s`. -/
def loop_passes : Nat → State → Option State
  | 0, s => some s
  | n + 1, s =>
    match main_loop_body s with
    | .ok t => if t.next_event_type = 5 then none else loop_passes n t
    | .error _ => none

/-- An input on which customers queue at both stations: all means 1, run
length 1000, and the draws `-log u` equal to 1 except the third (10), the sixth
(100) and the eighth (50). -/
def tandemStart : State :=
  { exampleStart with
    mean_service1 := 1
    mean_service2 := 1
    log_lcgrand := fun n =>
      if n = 2 then -10 else if n = 5 then -100 else if n = 7 then -50 else -1 }

/-- The `do ... while (next_event_type != 5)` loop of `main` with a bound on
the number of passes: `none` when the bound is reached before the loop ends,
otherwise the error that stopped the program or the state in which the loop
ended. -/
def run_loop : Nat → State → Option (Except Abort State)
  | 0, _ => none
  | n + 1, s =>
    match main_loop_body s with
    | .error e => some (.error e)
    | .ok t => if t.next_event_type ≠ 5 then run_loop n t else some (.ok t)

/-- One replication of the `for` loop of `main`: `initialize()`, then the
`do ... while` loop. -/
def replication (fuel : Nat) (s : State) : Option (Except Abort State) :=
  run_loop fuel (initializeSim s)

/-- The function `void timing(void)` once more, keeping the global variables
as they are at the moment of `exit(1)`: the loop has left `next_event_type` at
0 and `sim_time` has not been assigned. -/
def timing_exit_state (s : State) : Except (Abort × State) State :=
  let r := timing_loop s.time_next_event s.num_events.toNat 1 (TIME_LIMIT, 0)
  let s := { s with next_event_type := r.2 }
  if s.next_event_type = 0 then
    .error (.event_list_empty, s)
  else
    .ok { s with sim_time := r.1 }

/-- The six divisions `report` performs for its `fprintf` calls, in order,
each as the pair (dividend, divisor); the `int` divisor `num_custs_delayed` is
converted as C converts it.  The source has no test before any of them. -/
def report_divisions (s : State) : List (ℚ × ℚ) :=
  [(s.total_of_delays1, (s.num_custs_delayed : ℚ)),
   (s.total_of_delays2, (s.num_custs_delayed : ℚ)),
   (s.area_num_in_q1, s.sim_time),
   (s.area_num_in_q2, s.sim_time),
   (s.area_server1_status, s.sim_time),
   (s.area_server2_status, s.sim_time)]

/-- What no event handler changes: the event type, the clock and its marker,
the configuration, the area accumulators, and the entries 2 and 5 of the event
list. -/
def Frame (x u : State) : Prop :=
  u.next_event_type = x.next_event_type ∧ u.num_events = x.num_events ∧
  u.sim_time = x.sim_time ∧ u.time_last_event = x.time_last_event ∧
  u.time_end = x.time_end ∧ u.mean_interarrival = x.mean_interarrival ∧
  u.mean_service1 = x.mean_service1 ∧ u.mean_service2 = x.mean_service2 ∧
  u.area_num_in_q1 = x.area_num_in_q1 ∧ u.area_num_in_q2 = x.area_num_in_q2 ∧
  u.area_server1_status = x.area_server1_status ∧
  u.area_server2_status = x.area_server2_status ∧
  u.time_next_event 2 = x.time_next_event 2 ∧ u.time_next_event 5 = x.time_next_event 5

/-- The two entries of the event list that stay as `initialize` set them:
Arrival2 unscheduled and EndOfRun at `time_end`, the run length of the
replication started from `s0`. -/
def CalendarFixed (s0 s : State) : Prop :=
  s.time_end = s0.time_end ∧ s.time_next_event 5 = s0.time_end ∧
  s.time_next_event 2 = TIME_UNSCHEDULED

/-- A calendar whose only entry other than `1.0e+30` is EndOfRun, at
`5.0e+29`. -/
def lateEndState : State :=
  { exampleStart with
    time_end := 5 * 10 ^ 29
    time_next_event := fun i => if i = 5 then 5 * 10 ^ 29 else 10 ^ 30 }

/-- A calendar with all five kinds at the `1.0e+30` sentinel, the clock at
7. -/
def emptyCalendarState : State :=
  { exampleStart with
    sim_time := 7
    time_last_event := 7
    next_event_type := 3
    time_next_event := fun _ => 10 ^ 30 }

/-- The input of `exampleStart` with the run length 1/2, shorter than the
first interarrival time 1. -/
def shortRunStart : State :=
  { exampleStart with time_end := 1 / 2 }

/-- Each server status is `IDLE` or `BUSY`, and an idle server has an empty
queue and no departure scheduled. -/
def StationInv (s : State) : Prop :=
  (s.server1_status = IDLE ∨ s.server1_status = BUSY) ∧
  (s.server2_status = IDLE ∨ s.server2_status = BUSY) ∧
  (s.server1_status = IDLE → s.num_in_q1 = 0 ∧ s.time_next_event 3 = TIME_UNSCHEDULED) ∧
  (s.server2_status = IDLE → s.num_in_q2 = 0 ∧ s.time_next_event 4 = TIME_UNSCHEDULED)

/-- The area accumulators against the time up to which they have been
integrated, `time_last_event`: each busy-time integral lies between 0 and that
time, each queue-length integral between 0 and `Q_LIMIT` times it. -/
def AreaBounds (s : State) : Prop :=
  0 ≤ s.time_last_event ∧
  0 ≤ s.area_server1_status ∧ s.area_server1_status ≤ s.time_last_event ∧
  0 ≤ s.area_server2_status ∧ s.area_server2_status ≤ s.time_last_event ∧
  0 ≤ s.area_num_in_q1 ∧ s.area_num_in_q1 ≤ (Q_LIMIT : ℚ) * s.time_last_event ∧
  0 ≤ s.area_num_in_q2 ∧ s.area_num_in_q2 ≤ (Q_LIMIT : ℚ) * s.time_last_event

/-- The bounds of the area accumulators against the clock: each busy-time
integral lies between 0 and `sim_time`, each queue-length integral between 0
and `Q_LIMIT * sim_time`. -/
def ClockAreaBounds (s : State) : Prop :=
  0 ≤ s.area_server1_status ∧ s.area_server1_status ≤ s.sim_time ∧
  0 ≤ s.area_server2_status ∧ s.area_server2_status ≤ s.sim_time ∧
  0 ≤ s.area_num_in_q1 ∧ s.area_num_in_q1 ≤ (Q_LIMIT : ℚ) * s.sim_time ∧
  0 ≤ s.area_num_in_q2 ∧ s.area_num_in_q2 ≤ (Q_LIMIT : ℚ) * s.sim_time

/-- The timestamps waiting in the two queues: none is later than the clock,
each queue is in non-decreasing order from head to tail, no timestamp of
station 2's queue is later than one of station 1's queue, and the two delay
totals are non-negative. -/
def QueueTimes (s : State) : Prop :=
  (∀ i, 1 ≤ i → i ≤ s.num_in_q1 → s.time_arrival1 i ≤ s.sim_time) ∧
  (∀ i j, 1 ≤ i → i ≤ j → j ≤ s.num_in_q1 → s.time_arrival1 i ≤ s.time_arrival1 j) ∧
  (∀ i, 1 ≤ i → i ≤ s.num_in_q2 → s.time_arrival2 i ≤ s.sim_time) ∧
  (∀ i j, 1 ≤ i → i ≤ j → j ≤ s.num_in_q2 → s.time_arrival2 i ≤ s.time_arrival2 j) ∧
  (∀ i j, 1 ≤ i → i ≤ s.num_in_q2 → 1 ≤ j → j ≤ s.num_in_q1 →
    s.time_arrival2 i ≤ s.time_arrival1 j) ∧
  0 ≤ s.total_of_delays1 ∧ 0 ≤ s.total_of_delays2

/-- The three arrays of the program. -/
inductive ArrayName where
  | time_arrival1
  | time_arrival2
  | time_next_event
  deriving DecidableEq, Repr

/-- The array accesses of `timing`: `time_next_event[i]` for
`i = 1 .. num_events`. -/
def timing_accesses (s : State) : List (ArrayName × Int) :=
  (List.range s.num_events.toNat).map
    fun (k : Nat) => (ArrayName.time_next_event, Int.ofNat k + 1)

/-- The array accesses of `k` further iterations of `a[i] = a[i + 1]` from
index `i`: the write at `i` and the read at `i + 1`. -/
def shift_accesses (a : ArrayName) : Nat → Int → List (ArrayName × Int)
  | 0, _ => []
  | k + 1, i => (a, i) :: (a, i + 1) :: shift_accesses a k (i + 1)

/-- The array accesses of `arrive`, branch by branch as in the source: the
write of `time_next_event[1]`, then either the write of
`time_arrival1[num_in_q1]` after the increment (none when the overflow check
stops the program first) or the write of `time_next_event[3]`. -/
def arrive_accesses (s : State) : List (ArrayName × Int) :=
  (ArrayName.time_next_event, 1) ::
    (if s.server1_status = BUSY then
      if s.num_in_q1 + 1 > Q_LIMIT then []
      else [(ArrayName.time_arrival1, s.num_in_q1 + 1)]
    else [(ArrayName.time_next_event, 3)])

/-- The array accesses of `second_arrive`: the write of
`time_arrival2[num_in_q2]` after the increment and the read of
`time_arrival1[0]` (none when the overflow check stops the program first), or
the write of `time_next_event[4]`. -/
def second_arrive_accesses (s : State) : List (ArrayName × Int) :=
  if s.server2_status = BUSY then
    if s.num_in_q2 + 1 > Q_LIMIT then []
    else [(ArrayName.time_arrival2, s.num_in_q2 + 1), (ArrayName.time_arrival1, 0)]
  else [(ArrayName.time_next_event, 4)]

/-- The array accesses of `depart`: the write of `time_next_event[3]` when
the queue is empty; otherwise the reads of `time_arrival1[1]`, the write of
`time_arrival2[num_in_q2]`, the write of `time_next_event[3]`, the shift loop
for `i = 0 .. num_in_q1` (after the decrement), and the accesses of the call
of `second_arrive`. -/
def depart_accesses (s : State) : List (ArrayName × Int) :=
  if s.num_in_q1 = 0 then [(ArrayName.time_next_event, 3)]
  else
    [(ArrayName.time_arrival1, 1), (ArrayName.time_arrival2, s.num_in_q2),
      (ArrayName.time_arrival1, 1), (ArrayName.time_next_event, 3)] ++
    shift_accesses ArrayName.time_arrival1 (s.num_in_q1 - 1 + 1).toNat 0 ++
    second_arrive_accesses (depart_station1 s)

/-- The array accesses of `second_depart`: the write of `time_next_event[4]`
when the queue is empty; otherwise the read of `time_arrival2[1]`, the write of
`time_next_event[4]` and the shift loop for `i = 1 .. num_in_q2` (after the
decrement). -/
def second_depart_accesses (s : State) : List (ArrayName × Int) :=
  if s.num_in_q2 = 0 then [(ArrayName.time_next_event, 4)]
  else
    [(ArrayName.time_arrival2, 1), (ArrayName.time_next_event, 4)] ++
    shift_accesses ArrayName.time_arrival2 (s.num_in_q2 - 1).toNat 1

/-- An access is in range: an index in `0 .. Q_LIMIT` for `time_arrival1` and
`time_arrival2` (declared with `Q_LIMIT + 1` elements), an index in `1 .. 5`
for `time_next_event` (declared with 6 elements, of which the program uses the
last five). -/
def InRange (a : ArrayName × Int) : Prop :=
  match a.1 with
  | .time_arrival1 => 0 ≤ a.2 ∧ a.2 ≤ Q_LIMIT
  | .time_arrival2 => 0 ≤ a.2 ∧ a.2 ≤ Q_LIMIT
  | .time_next_event => 1 ≤ a.2 ∧ a.2 ≤ 5

/-- The eight values a replication hands to `report`: `sim_time`,
`num_custs_delayed`, the two delay totals and the four area accumulators. -/
def final_values (s : State) : ℚ × Int × ℚ × ℚ × ℚ × ℚ × ℚ × ℚ :=
  (s.sim_time, s.num_custs_delayed, s.total_of_delays1, s.total_of_delays2,
    s.area_num_in_q1, s.area_num_in_q2, s.area_server1_status, s.area_server2_status)

/-- The state `s` with other contents in `next_event_type` and in the three
arrays. -/
def with_leftover (s : State) (k : Int) (a1 a2 e : Int → ℚ) : State :=
  { s with next_event_type := k, time_arrival1 := a1, time_arrival2 := a2,
           time_next_event := e }

/-- The arrays `a1`, `a2`, `e` hold what the arrays of `s` hold in the places
in use: the event-list entries `1 .. 5` and the queue entries
`1 .. num_in_q1`, `1 .. num_in_q2`. -/
def Agree (s : State) (a1 a2 e : Int → ℚ) : Prop :=
  (∀ i, 1 ≤ i → i ≤ 5 → s.time_next_event i = e i) ∧
  (∀ i, 1 ≤ i → i ≤ s.num_in_q1 → s.time_arrival1 i = a1 i) ∧
  (∀ i, 1 ≤ i → i ≤ s.num_in_q2 → s.time_arrival2 i = a2 i)

/-- The state `s'` differs from `s` at most in `next_event_type` and in the
array places that are not in use. -/
def Leftover (s s' : State) : Prop :=
  ∃ k a1 a2 e, s' = with_leftover s k a1 a2 e ∧ Agree s a1 a2 e

/-- The state `s'` differs from `s` at most in the array places that are not
in use. -/
def LeftoverArrays (s s' : State) : Prop :=
  ∃ a1 a2 e, s' = with_leftover s s.next_event_type a1 a2 e ∧ Agree s a1 a2 e

/-- Two results of a step are the same up to the array places not in use: the
same error, or two states related by `LeftoverArrays`. -/
def SameOutcome (r r' : Except Abort State) : Prop :=
  match r, r' with
  | .ok t, .ok t' => LeftoverArrays t t'
  | .error e, .error e' => e = e'
  | _, _ => False

/-- The same configuration and the same sequence of draws, with `num_events`
as `main` has set it. -/
def SameInput (s s' : State) : Prop :=
  s.num_events = 5 ∧ s'.num_events = 5 ∧
  s'.mean_interarrival = s.mean_interarrival ∧ s'.mean_service1 = s.mean_service1 ∧
  s'.mean_service2 = s.mean_service2 ∧ s'.time_end = s.time_end ∧
  s'.log_lcgrand = s.log_lcgrand

/-- The input of `exampleStart` with the run length 2. -/
def twoMinuteStart : State :=
  { exampleStart with time_end := 2 }

/-- The input of `twoMinuteStart` in a state as an earlier replication could
have left it: other counters, statuses, clock, accumulators and array
contents. -/
def usedTwoMinuteStart : State :=
  { twoMinuteStart with
    next_event_type := 5
    num_custs_delayed := 17
    num_in_q1 := 3
    num_in_q2 := 1
    server1_status := BUSY
    server2_status := BUSY
    area_num_in_q1 := 4
    area_num_in_q2 := 5
    area_server1_status := 6
    area_server2_status := 7
    sim_time := 1000
    time_last_event := 1000
    time_arrival1 := fun _ => 99
    time_arrival2 := fun _ => 98
    time_next_event := fun _ => 97
    total_of_delays1 := 8
    total_of_delays2 := 9 }

/-- The function `void second_arrive(void)` once more, keeping the global
variables as they are at the moment of `exit(2)`: `num_in_q2` has been
incremented and nothing else has changed. -/
def second_arrive_exit_state (s : State) : Except (Abort × State) State :=
  if s.server2_status = BUSY then
    let s := { s with num_in_q2 := s.num_in_q2 + 1 }
    if s.num_in_q2 > Q_LIMIT then
      .error (.queue_overflow, s)
    else
      .ok { s with time_arrival2 := Function.update s.time_arrival2 s.num_in_q2 (s.time_arrival1 0) }
  else
    let delay : ℚ := 0
    let s := { s with total_of_delays2 := s.total_of_delays2 + delay }
    let s := { s with num_custs_delayed := s.num_custs_delayed + 1 }
    let s := { s with server2_status := BUSY }
    let (e, s) := expon s.mean_service2 s
    .ok { s with time_next_event := Function.update s.time_next_event 4 (s.sim_time + e) }

/-- The function `void depart(void)` once more, keeping the global variables
as they are at the moment of the `exit(2)` in its call of `second_arrive`:
all the statements of `depart` before the call have been executed. -/
def depart_exit_state (s : State) : Except (Abort × State) State :=
  if s.num_in_q1 = 0 then
    let s := { s with server1_status := IDLE }
    .ok { s with time_next_event := Function.update s.time_next_event 3 TIME_UNSCHEDULED }
  else
    let s := { s with num_in_q1 := s.num_in_q1 - 1 }
    let delay : ℚ := s.sim_time - s.time_arrival1 1
    let s := { s with total_of_delays1 := s.total_of_delays1 + delay }
    let s := { s with time_arrival2 := Function.update s.time_arrival2 s.num_in_q2 (s.time_arrival1 1) }
    let s := { s with num_custs_delayed := s.num_custs_delayed + 1 }
    let (e, s) := expon s.mean_service1 s
    let s := { s with time_next_event := Function.update s.time_next_event 3 (s.sim_time + e) }
    let s := { s with time_arrival1 := shift_loop s.time_arrival1 (s.num_in_q1 + 1).toNat 0 }
    second_arrive_exit_state s

/-- The global variables when a call has ended: the state it returned, or
the state at the `exit`. -/
def end_state (r : Except (Abort × State) State) : State :=
  match r with
  | .ok t => t
  | .error (_, t) => t

/-! ## The scan of `timing` -/

/-- What the scan of `timing` computes over the indices `i .. i + k - 1` from
the running pair `(m, ty)`: a lower bound of the scanned entries and of `m`;
and either nothing scanned is below `m` and the pair is unchanged, or the
result is the first scanned index holding the least scanned time, which is
below `m`. -/
theorem timing_loop_spec (tne : Int → ℚ) (k : Nat) : ∀ (i : Int) (m : ℚ) (ty : Int),
    (∀ j, i ≤ j → j < i + k → (timing_loop tne k i (m, ty)).1 ≤ tne j) ∧
    (timing_loop tne k i (m, ty)).1 ≤ m ∧
    ((timing_loop tne k i (m, ty) = (m, ty) ∧ ∀ j, i ≤ j → j < i + k → m ≤ tne j) ∨
     (i ≤ (timing_loop tne k i (m, ty)).2 ∧ (timing_loop tne k i (m, ty)).2 < i + k ∧
      (timing_loop tne k i (m, ty)).1 = tne (timing_loop tne k i (m, ty)).2 ∧
      (timing_loop tne k i (m, ty)).1 < m ∧
      ∀ j, i ≤ j → j < (timing_loop tne k i (m, ty)).2 →
        (timing_loop tne k i (m, ty)).1 < tne j)) := by
  induction k with
  | zero =>
    intro i m ty
    refine ⟨?_, le_refl _, Or.inl ⟨rfl, ?_⟩⟩
    · intro j h1 h2
      simp at h2
      omega
    · intro j h1 h2
      simp at h2
      omega
  | succ k ih =>
    intro i m ty
    by_cases hlt : tne i < m
    · have hstep : timing_loop tne (k + 1) i (m, ty) = timing_loop tne k (i + 1) (tne i, i) := by
        simp [timing_loop, hlt]
      rw [hstep]
      obtain ⟨hA, hB, hC⟩ := ih (i + 1) (tne i) i
      refine ⟨?_, le_trans hB (le_of_lt hlt), Or.inr ?_⟩
      · intro j h1 h2
        rcases eq_or_lt_of_le h1 with h | h
        · rw [← h]
          exact hB
        · exact hA j (by omega) (by push_cast at h2 ⊢; omega)
      · rcases hC with ⟨heq, _⟩ | ⟨h1, h2, h3, h4, h5⟩
        · rw [heq]
          refine ⟨le_refl _, by push_cast; omega, rfl, hlt, ?_⟩
          intro j h1 h2
          simp only at h2
          omega
        · refine ⟨by omega, by push_cast at h2 ⊢; omega, h3, lt_trans h4 hlt, ?_⟩
          intro j h6 h7
          rcases eq_or_lt_of_le h6 with h | h
          · rw [← h]
            exact h4
          · exact h5 j (by omega) h7
    · have hstep : timing_loop tne (k + 1) i (m, ty) = timing_loop tne k (i + 1) (m, ty) := by
        simp [timing_loop, hlt]
      rw [hstep]
      obtain ⟨hA, hB, hC⟩ := ih (i + 1) m ty
      have hmi : m ≤ tne i := not_lt.mp hlt
      refine ⟨?_, hB, ?_⟩
      · intro j h1 h2
        rcases eq_or_lt_of_le h1 with h | h
        · rw [← h]
          exact le_trans hB hmi
        · exact hA j (by omega) (by push_cast at h2 ⊢; omega)
      · rcases hC with ⟨heq, hall⟩ | ⟨h1, h2, h3, h4, h5⟩
        · refine Or.inl ⟨heq, ?_⟩
          intro j h1 h2
          rcases eq_or_lt_of_le h1 with h | h
          · rw [← h]
            exact hmi
          · exact hall j (by omega) (by push_cast at h2 ⊢; omega)
        · refine Or.inr ⟨by omega, by push_cast at h2 ⊢; omega, h3, h4, ?_⟩
          intro j h6 h7
          rcases eq_or_lt_of_le h6 with h | h
          · rw [← h]
            exact lt_of_lt_of_le h4 hmi
          · exact h5 j (by omega) h7

/-- With the five event kinds of `main`, a call of `timing` that returns has
chosen a kind in `1 .. 5` whose time is below `1.0e+29` and is least among the
five, has set `sim_time` to that time, and has changed nothing else. -/
theorem timing_ok (s t : State) (hn : s.num_events = 5) (h : timing s = .ok t) :
    1 ≤ t.next_event_type ∧ t.next_event_type ≤ 5 ∧
    t = { s with next_event_type := t.next_event_type,
                 sim_time := s.time_next_event t.next_event_type } ∧
    t.sim_time = s.time_next_event t.next_event_type ∧
    t.sim_time < TIME_LIMIT ∧
    (∀ j, 1 ≤ j → j ≤ 5 → t.sim_time ≤ s.time_next_event j) ∧
    (∀ j, 1 ≤ j → j < t.next_event_type → t.sim_time < s.time_next_event j) := by
  obtain ⟨hA, _, hC⟩ := timing_loop_spec s.time_next_event 5 1 TIME_LIMIT 0
  have h5 : s.num_events.toNat = 5 := by rw [hn]; rfl
  unfold timing at h
  rw [h5] at h
  dsimp only at h
  split at h
  · exact absurd h (by simp)
  · rename_i hne
    have ht : t = { s with
        next_event_type := (timing_loop s.time_next_event 5 1 (TIME_LIMIT, 0)).2,
        sim_time := (timing_loop s.time_next_event 5 1 (TIME_LIMIT, 0)).1 } := by
      simpa using h.symm
    rcases hC with ⟨heq, _⟩ | ⟨h1, h2, h3, h4, h6⟩
    · rw [heq] at hne
      exact absurd rfl hne
    · have e1 : t.next_event_type = (timing_loop s.time_next_event 5 1 (TIME_LIMIT, 0)).2 := by
        rw [ht]
      have e2 : t.sim_time = (timing_loop s.time_next_event 5 1 (TIME_LIMIT, 0)).1 := by
        rw [ht]
      refine ⟨by omega, by push_cast at h2; omega, ?_, ?_, ?_, ?_, ?_⟩
      · rw [e1, ← h3]
        exact ht
      · rw [e1, e2]
        exact h3
      · rw [e2]
        exact h4
      · intro j hj1 hj2
        rw [e2]
        exact hA j hj1 (by push_cast; omega)
      · intro j hj1 hj2
        rw [e2]
        rw [e1] at hj2
        exact h6 j hj1 hj2

/-- With the five event kinds of `main`, `timing` returns as soon as one of
the five times is below `1.0e+29`. -/
theorem timing_returns (s : State) (hn : s.num_events = 5)
    (h : ∃ i, 1 ≤ i ∧ i ≤ 5 ∧ s.time_next_event i < TIME_LIMIT) :
    ∃ t, timing s = .ok t := by
  obtain ⟨i, hi1, hi2, hi3⟩ := h
  obtain ⟨_, _, hC⟩ := timing_loop_spec s.time_next_event 5 1 TIME_LIMIT 0
  have h5 : s.num_events.toNat = 5 := by rw [hn]; rfl
  rcases hC with ⟨_, hall⟩ | ⟨h1, _, _, _, _⟩
  · exact absurd hi3 (not_lt.mpr (hall i hi1 (by push_cast; omega)))
  · have hne : (timing_loop s.time_next_event 5 1 (TIME_LIMIT, 0)).2 ≠ 0 := by omega
    have hok : timing s = .ok { s with
        next_event_type := (timing_loop s.time_next_event 5 1 (TIME_LIMIT, 0)).2,
        sim_time := (timing_loop s.time_next_event 5 1 (TIME_LIMIT, 0)).1 } := by
      unfold timing
      rw [h5]
      exact if_neg hne
    exact ⟨_, hok⟩

/-! ## The shift loops -/

/-- The effect of `k` iterations of `a[i] = a[i + 1]` from index `i`: the
entries `i .. i + k - 1` take the value of their right neighbour, the others
keep theirs. -/
theorem shift_loop_apply (k : Nat) : ∀ (a : Int → ℚ) (i j : Int),
    shift_loop a k i j = if i ≤ j ∧ j < i + k then a (j + 1) else a j := by
  induction k with
  | zero =>
    intro a i j
    have h0 : ¬ (i ≤ j ∧ j < i + ((0 : Nat) : Int)) := by
      push_cast
      omega
    rw [if_neg h0]
    rfl
  | succ k ih =>
    intro a i j
    rw [shift_loop, ih]
    by_cases h1 : i + 1 ≤ j ∧ j < i + 1 + (k : Int)
    · have h2 : i ≤ j ∧ j < i + ((k + 1 : Nat) : Int) := by
        push_cast
        omega
      have h3 : j + 1 ≠ i := by omega
      rw [if_pos h1, if_pos h2, Function.update_apply, if_neg h3]
    · by_cases h4 : j = i
      · have h2 : i ≤ j ∧ j < i + ((k + 1 : Nat) : Int) := by
          push_cast
          omega
        rw [if_neg h1, if_pos h2, Function.update_apply, if_pos h4, h4]
      · have h2 : ¬ (i ≤ j ∧ j < i + ((k + 1 : Nat) : Int)) := by
          push_cast
          omega
        rw [if_neg h1, if_neg h2, Function.update_apply, if_neg h4]

/-! ## The handlers, branch by branch -/

/-- The result of `arrive` with station 1 not busy. -/
theorem arrive_idle (s : State) (h : s.server1_status ≠ BUSY) :
    arrive s = .ok { s with
      log_lcgrand := fun n => s.log_lcgrand (n + 1 + 1)
      time_next_event :=
        Function.update
          (Function.update s.time_next_event 1 (s.sim_time + -s.mean_interarrival * s.log_lcgrand 0))
          3 (s.sim_time + -s.mean_service1 * s.log_lcgrand 1)
      total_of_delays1 := s.total_of_delays1 + 0
      num_custs_delayed := s.num_custs_delayed + 1
      server1_status := BUSY } := by
  unfold arrive expon
  dsimp only
  rw [if_neg h]

/-- The result of `arrive` with station 1 busy and room in its queue. -/
theorem arrive_busy (s : State) (h : s.server1_status = BUSY) (hq : ¬ s.num_in_q1 + 1 > Q_LIMIT) :
    arrive s = .ok { s with
      log_lcgrand := fun n => s.log_lcgrand (n + 1)
      time_next_event :=
        Function.update s.time_next_event 1 (s.sim_time + -s.mean_interarrival * s.log_lcgrand 0)
      num_in_q1 := s.num_in_q1 + 1
      time_arrival1 := Function.update s.time_arrival1 (s.num_in_q1 + 1) s.sim_time } := by
  unfold arrive expon
  dsimp only
  rw [if_pos h, if_neg hq]

/-- The result of `arrive` with station 1 busy and its queue full. -/
theorem arrive_overflow (s : State) (h : s.server1_status = BUSY) (hq : s.num_in_q1 + 1 > Q_LIMIT) :
    arrive s = .error .queue_overflow := by
  unfold arrive expon
  dsimp only
  rw [if_pos h, if_pos hq]

/-- The result of `second_arrive` with station 2 not busy. -/
theorem second_arrive_idle (s : State) (h : s.server2_status ≠ BUSY) :
    second_arrive s = .ok { s with
      log_lcgrand := fun n => s.log_lcgrand (n + 1)
      time_next_event :=
        Function.update s.time_next_event 4 (s.sim_time + -s.mean_service2 * s.log_lcgrand 0)
      total_of_delays2 := s.total_of_delays2 + 0
      num_custs_delayed := s.num_custs_delayed + 1
      server2_status := BUSY } := by
  unfold second_arrive expon
  dsimp only
  rw [if_neg h]

/-- The result of `second_arrive` with station 2 busy and room in its queue. -/
theorem second_arrive_busy (s : State) (h : s.server2_status = BUSY)
    (hq : ¬ s.num_in_q2 + 1 > Q_LIMIT) :
    second_arrive s = .ok { s with
      num_in_q2 := s.num_in_q2 + 1
      time_arrival2 := Function.update s.time_arrival2 (s.num_in_q2 + 1) (s.time_arrival1 0) } := by
  unfold second_arrive
  dsimp only
  rw [if_pos h, if_neg hq]

/-- The result of `second_arrive` with station 2 busy and its queue full. -/
theorem second_arrive_overflow (s : State) (h : s.server2_status = BUSY)
    (hq : s.num_in_q2 + 1 > Q_LIMIT) :
    second_arrive s = .error .queue_overflow := by
  unfold second_arrive
  dsimp only
  rw [if_pos h, if_pos hq]

/-- The result of `depart` with station 1's queue empty: no call of `second_arrive`. -/
theorem depart_empty (s : State) (h : s.num_in_q1 = 0) :
    depart s = .ok { s with
      server1_status := IDLE
      time_next_event := Function.update s.time_next_event 3 TIME_UNSCHEDULED } := by
  unfold depart
  dsimp only
  rw [if_pos h]

/-- The result of `depart` with station 1's queue not empty: the station-1 bookkeeping
(with the write into `time_arrival2[num_in_q2]`), then `second_arrive`. -/
theorem depart_nonempty (s : State) (h : s.num_in_q1 ≠ 0) :
    depart s = second_arrive { s with
      num_in_q1 := s.num_in_q1 - 1
      total_of_delays1 := s.total_of_delays1 + (s.sim_time - s.time_arrival1 1)
      time_arrival2 := Function.update s.time_arrival2 s.num_in_q2 (s.time_arrival1 1)
      num_custs_delayed := s.num_custs_delayed + 1
      log_lcgrand := fun n => s.log_lcgrand (n + 1)
      time_next_event :=
        Function.update s.time_next_event 3 (s.sim_time + -s.mean_service1 * s.log_lcgrand 0)
      time_arrival1 := shift_loop s.time_arrival1 (s.num_in_q1 - 1 + 1).toNat 0 } := by
  unfold depart expon
  dsimp only
  rw [if_neg h]

/-- The result of `second_depart` with station 2's queue empty. -/
theorem second_depart_empty (s : State) (h : s.num_in_q2 = 0) :
    second_depart s = { s with
      server2_status := IDLE
      time_next_event := Function.update s.time_next_event 4 TIME_UNSCHEDULED } := by
  unfold second_depart
  dsimp only
  rw [if_pos h]

/-- The result of `second_depart` with station 2's queue not empty. -/
theorem second_depart_nonempty (s : State) (h : s.num_in_q2 ≠ 0) :
    second_depart s = { s with
      num_in_q2 := s.num_in_q2 - 1
      total_of_delays2 := s.total_of_delays2 + (s.sim_time - s.time_arrival2 1)
      num_custs_delayed := s.num_custs_delayed + 1
      log_lcgrand := fun n => s.log_lcgrand (n + 1)
      time_next_event :=
        Function.update s.time_next_event 4 (s.sim_time + -s.mean_service2 * s.log_lcgrand 0)
      time_arrival2 := shift_loop s.time_arrival2 (s.num_in_q2 - 1).toNat 1 } := by
  unfold second_depart expon
  dsimp only
  rw [if_neg h]

/-- The state `initialize` leaves, field by field. -/
theorem initializeSim_eq (s : State) :
    initializeSim s = { s with
      sim_time := 0
      server1_status := IDLE
      server2_status := IDLE
      num_in_q1 := 0
      num_in_q2 := 0
      time_last_event := 0
      num_custs_delayed := 0
      total_of_delays1 := 0
      total_of_delays2 := 0
      area_num_in_q1 := 0
      area_num_in_q2 := 0
      area_server1_status := 0
      area_server2_status := 0
      log_lcgrand := fun n => s.log_lcgrand (n + 1)
      time_next_event :=
        Function.update (Function.update (Function.update (Function.update (Function.update
          s.time_next_event 1 (0 + -s.mean_interarrival * s.log_lcgrand 0))
          2 TIME_UNSCHEDULED) 3 TIME_UNSCHEDULED) 4 TIME_UNSCHEDULED) 5 s.time_end } := rfl

/-- The head of station 1's queue sits in `time_arrival1[0]` after the shift
loop of `depart`, for a queue that was not empty. -/
theorem shift_loop_head (a : Int → ℚ) (n : Int) (h : 1 ≤ n) :
    shift_loop a (n - 1 + 1).toNat 0 0 = a 1 := by
  rw [shift_loop_apply]
  have hk : ((n - 1 + 1).toNat : Int) = n := by omega
  have h0 : (0 : Int) ≤ 0 ∧ (0 : Int) < 0 + ((n - 1 + 1).toNat : Int) := by
    rw [hk]
    omega
  rw [if_pos h0]
  rfl

/-! ## Invariants of the driver loop -/

/-- A product `-mean * log u` is non-negative for a positive mean and a
negative logarithm. -/
theorem neg_mean_mul_log_nonneg (m l : ℚ) (hm : 0 < m) (hl : l < 0) : 0 ≤ -m * l := by
  have : 0 < m * (-l) := mul_pos hm (by linarith)
  linarith

/-- The sentinel `1.0e+30` is positive. -/
theorem time_unscheduled_pos : (0 : ℚ) < TIME_UNSCHEDULED := by
  norm_num [TIME_UNSCHEDULED]

/-- The scan limit `1.0e+29` is below the sentinel `1.0e+30`. -/
theorem time_limit_lt_unscheduled : TIME_LIMIT < TIME_UNSCHEDULED := by
  norm_num [TIME_LIMIT, TIME_UNSCHEDULED]

/-- A returning `timing` changes `next_event_type` and `sim_time` only. -/
theorem timing_frame (s t : State) (h : timing s = .ok t) :
    ∃ k m, t = { s with next_event_type := k, sim_time := m } := by
  unfold timing at h
  dsimp only at h
  split at h
  · exact absurd h (by simp)
  · exact ⟨_, _, (Except.ok.inj h).symm⟩

/-- The handler `arrive` keeps both invariants. -/
theorem arrive_inv (s t : State) (h : arrive s = .ok t) :
    (LoopInv s → LoopInv t) ∧ (Sched s → Sched t) := by
  by_cases hb : s.server1_status = BUSY
  · by_cases hq : s.num_in_q1 + 1 > Q_LIMIT
    · rw [arrive_overflow s hb hq] at h
      exact absurd h (by simp)
    · rw [arrive_busy s hb hq] at h
      rw [← Except.ok.inj h]
      constructor
      · rintro ⟨h1, h2, h3, h4, h5, h6⟩
        exact ⟨h1, h2, by dsimp only; omega, by dsimp only; omega, h5, h6⟩
      · rintro ⟨⟨p1, p2, p3, p4, p5⟩, h2, h3⟩
        refine ⟨⟨p1, p2, p3, p4, fun n => p5 (n + 1)⟩, h2, ?_⟩
        intro i hi1 hi2
        have e := neg_mean_mul_log_nonneg _ _ p1 (p5 0)
        have := h3 i hi1 hi2
        dsimp only
        rw [Function.update_apply]
        split_ifs <;> linarith
  · rw [arrive_idle s hb] at h
    rw [← Except.ok.inj h]
    constructor
    · exact fun hinv => hinv
    · rintro ⟨⟨p1, p2, p3, p4, p5⟩, h2, h3⟩
      refine ⟨⟨p1, p2, p3, p4, fun n => p5 (n + 1 + 1)⟩, h2, ?_⟩
      intro i hi1 hi2
      have e1 := neg_mean_mul_log_nonneg _ _ p1 (p5 0)
      have e2 := neg_mean_mul_log_nonneg _ _ p2 (p5 1)
      have := h3 i hi1 hi2
      dsimp only
      simp only [Function.update_apply]
      split_ifs <;> linarith

/-- The handler `second_arrive` keeps both invariants. -/
theorem second_arrive_inv (s t : State) (h : second_arrive s = .ok t) :
    (LoopInv s → LoopInv t) ∧ (Sched s → Sched t) := by
  by_cases hb : s.server2_status = BUSY
  · by_cases hq : s.num_in_q2 + 1 > Q_LIMIT
    · rw [second_arrive_overflow s hb hq] at h
      exact absurd h (by simp)
    · rw [second_arrive_busy s hb hq] at h
      rw [← Except.ok.inj h]
      constructor
      · rintro ⟨h1, h2, h3, h4, h5, h6⟩
        exact ⟨h1, h2, h3, h4, by dsimp only; omega, by dsimp only; omega⟩
      · exact fun hs => hs
  · rw [second_arrive_idle s hb] at h
    rw [← Except.ok.inj h]
    constructor
    · exact fun hinv => hinv
    · rintro ⟨⟨p1, p2, p3, p4, p5⟩, h2, h3⟩
      refine ⟨⟨p1, p2, p3, p4, fun n => p5 (n + 1)⟩, h2, ?_⟩
      intro i hi1 hi2
      have e := neg_mean_mul_log_nonneg _ _ p3 (p5 0)
      have := h3 i hi1 hi2
      dsimp only
      rw [Function.update_apply]
      split_ifs <;> linarith

/-- The call `depart` with a non-empty station-1 queue is the bookkeeping
`depart_station1` followed by `second_arrive`. -/
theorem depart_nonempty_eq (s : State) (h : s.num_in_q1 ≠ 0) :
    depart s = second_arrive (depart_station1 s) :=
  depart_nonempty s h

/-- The handler `depart` keeps both invariants. -/
theorem depart_inv (s t : State) (h : depart s = .ok t) :
    (LoopInv s → LoopInv t) ∧ (Sched s → Sched t) := by
  by_cases h0 : s.num_in_q1 = 0
  · rw [depart_empty s h0] at h
    rw [← Except.ok.inj h]
    constructor
    · exact fun hinv => hinv
    · rintro ⟨hp, h2, h3⟩
      refine ⟨hp, h2, ?_⟩
      intro i hi1 hi2
      have := h3 i hi1 hi2
      dsimp only
      rw [Function.update_apply]
      split_ifs
      · exact h2
      · exact this
  · rw [depart_nonempty_eq s h0] at h
    obtain ⟨k1, k2⟩ := second_arrive_inv _ t h
    constructor
    · intro hinv
      apply k1
      obtain ⟨h1, h2, h3, h4, h5, h6⟩ := hinv
      exact ⟨h1, h2, by show 0 ≤ s.num_in_q1 - 1; omega, by show s.num_in_q1 - 1 ≤ Q_LIMIT; omega,
        h5, h6⟩
    · intro hs
      apply k2
      obtain ⟨⟨p1, p2, p3, p4, p5⟩, h2, h3⟩ := hs
      refine ⟨⟨p1, p2, p3, p4, fun n => p5 (n + 1)⟩, h2, ?_⟩
      intro i hi1 hi2
      have e := neg_mean_mul_log_nonneg _ _ p2 (p5 0)
      have := h3 i hi1 hi2
      show s.sim_time ≤
        Function.update s.time_next_event 3 (s.sim_time + -s.mean_service1 * s.log_lcgrand 0) i
      rw [Function.update_apply]
      split_ifs <;> linarith

/-- The handler `second_depart` keeps both invariants. -/
theorem second_depart_inv (s : State) :
    (LoopInv s → LoopInv (second_depart s)) ∧ (Sched s → Sched (second_depart s)) := by
  by_cases h0 : s.num_in_q2 = 0
  · rw [second_depart_empty s h0]
    constructor
    · exact fun hinv => hinv
    · rintro ⟨hp, h2, h3⟩
      refine ⟨hp, h2, ?_⟩
      intro i hi1 hi2
      have := h3 i hi1 hi2
      dsimp only
      rw [Function.update_apply]
      split_ifs
      · exact h2
      · exact this
  · rw [second_depart_nonempty s h0]
    constructor
    · rintro ⟨h1, h2, h3, h4, h5, h6⟩
      exact ⟨h1, h2, h3, h4, by dsimp only; omega, by dsimp only; omega⟩
    · rintro ⟨⟨p1, p2, p3, p4, p5⟩, h2, h3⟩
      refine ⟨⟨p1, p2, p3, p4, fun n => p5 (n + 1)⟩, h2, ?_⟩
      intro i hi1 hi2
      have e := neg_mean_mul_log_nonneg _ _ p3 (p5 0)
      have := h3 i hi1 hi2
      dsimp only
      rw [Function.update_apply]
      split_ifs <;> linarith

/-- The `switch` of `main` keeps both invariants, whichever handler runs. -/
theorem dispatch_inv (s t : State) (h : dispatch s = .ok t) :
    (LoopInv s → LoopInv t) ∧ (Sched s → Sched t) := by
  unfold dispatch at h
  split_ifs at h
  · exact arrive_inv s t h
  · exact second_arrive_inv s t h
  · exact depart_inv s t h
  · rw [← Except.ok.inj h]
    exact second_depart_inv s
  · rw [← Except.ok.inj h]
    exact ⟨fun hinv => hinv, fun hs => hs⟩
  · rw [← Except.ok.inj h]
    exact ⟨fun hinv => hinv, fun hs => hs⟩

/-- A pass through the loop body splits into a returning `timing` and the
dispatch on the state `update_time_avg_stats` leaves. -/
theorem main_loop_body_ok (s u : State) (h : main_loop_body s = .ok u) :
    ∃ t, timing s = .ok t ∧ dispatch (update_time_avg_stats t) = .ok u := by
  unfold main_loop_body at h
  split at h
  · exact absurd h (by simp)
  · rename_i t ht
    exact ⟨t, ht, h⟩

/-- A pass through the loop body keeps both invariants. -/
theorem main_loop_body_inv (s u : State) (h : main_loop_body s = .ok u) (hinv : LoopInv s) :
    LoopInv u ∧ (Sched s → Sched u) := by
  obtain ⟨t, ht, hd⟩ := main_loop_body_ok s u h
  obtain ⟨k1, k2⟩ := dispatch_inv _ u hd
  obtain ⟨hn, _, hq⟩ := hinv
  obtain ⟨_, _, _, _, hlim, hmin, _⟩ := timing_ok s t hn ht
  obtain ⟨k, m, rfl⟩ := timing_frame s t ht
  constructor
  · exact k1 ⟨hn, rfl, hq⟩
  · rintro ⟨hp, _, _⟩
    apply k2
    refine ⟨hp, ?_, hmin⟩
    exact le_of_lt (lt_trans hlim time_limit_lt_unscheduled)

/-- The state `initialize` leaves satisfies both invariants. -/
theorem initializeSim_inv (s0 : State) (hn : s0.num_events = 5) :
    LoopInv (initializeSim s0) ∧ (PositiveInput s0 → Sched (initializeSim s0)) := by
  rw [initializeSim_eq]
  constructor
  · have hq : (0 : Int) ≤ Q_LIMIT := by decide
    exact ⟨hn, rfl, le_refl _, hq, le_refl _, hq⟩
  · rintro ⟨p1, p2, p3, p4, p5⟩
    refine ⟨⟨p1, p2, p3, p4, fun n => p5 (n + 1)⟩, le_of_lt time_unscheduled_pos, ?_⟩
    intro i hi1 hi2
    have e := neg_mean_mul_log_nonneg _ _ p1 (p5 0)
    have u := time_unscheduled_pos
    dsimp only
    simp only [Function.update_apply]
    split_ifs
    · linarith
    · linarith
    · linarith
    · linarith
    · linarith
    · omega

/-- Both invariants hold at every loop head of a replication. -/
theorem loopHead_inv (s0 s : State) (h : LoopHead s0 s) :
    LoopInv s ∧ (PositiveInput s0 → Sched s) := by
  induction h with
  | init hn => exact initializeSim_inv s0 hn
  | step _ hbody _ ih =>
    obtain ⟨k1, k2⟩ := main_loop_body_inv _ _ hbody ih.1
    exact ⟨k1, fun hp => k2 (ih.2 hp)⟩

/-! ## Example runs -/

/-- The first pass through the loop body from `exampleStart`: the arrival at
time 1 finds station 1 idle; the next arrival is due at 2 and the departure
from station 1 at 3/2. -/
theorem example_first_pass :
    ∃ t, main_loop_body (initializeSim exampleStart) = .ok t ∧ t.next_event_type = 1 ∧
      t.sim_time = 1 ∧ t.server1_status = BUSY ∧ t.num_custs_delayed = 1 ∧
      t.time_next_event 1 = 2 ∧ t.time_next_event 3 = 3 / 2 := by
  norm_num [main_loop_body, dispatch, update_time_avg_stats, arrive, BUSY, IDLE, timing,
    timing_loop, initializeSim, expon, exampleStart, TIME_LIMIT, TIME_UNSCHEDULED,
    Function.update_apply]

/-- The positive input of `exampleStart`. -/
theorem example_positive : PositiveInput exampleStart := by
  refine ⟨?_, ?_, ?_, ?_, ?_⟩ <;> norm_num [exampleStart]

/-- The states `loop_passes` reaches from a loop head are loop heads. -/
theorem loop_passes_loopHead (s0 : State) (n : Nat) :
    ∀ s t, LoopHead s0 s → loop_passes n s = some t → LoopHead s0 t := by
  induction n with
  | zero =>
    intro s t hs h
    rw [loop_passes] at h
    rw [← Option.some.inj h]
    exact hs
  | succ n ih =>
    intro s t hs h
    rw [loop_passes] at h
    split at h
    · rename_i u hu
      split_ifs at h with h5
      exact ih u t (LoopHead.step hs hu h5) h
    · exact absurd h (by simp)

/-- The replication from `tandemStart` after six events (arrivals at 1, 2, 3,
4, departures from station 1 at 11 and 12): the clock is at 12, one customer
waits at station 1 (arrived at 4), station 2 is busy and one customer waits
there with the timestamp 3, and the next event is Departure1 at 13. -/
theorem tandem_sixth_head :
    ∃ s, loop_passes 6 (initializeSim tandemStart) = some s ∧
      s.num_in_q1 = 1 ∧ s.server2_status = BUSY ∧ s.num_in_q2 = 1 ∧
      s.time_arrival1 1 = 4 ∧ s.time_arrival2 1 = 3 ∧
      s.time_next_event 1 = 104 ∧ s.time_next_event 2 = TIME_UNSCHEDULED ∧
      s.time_next_event 3 = 13 ∧ s.time_next_event 4 = 61 ∧ s.time_next_event 5 = 1000 := by
  norm_num [loop_passes, main_loop_body, dispatch, update_time_avg_stats, arrive, depart,
    second_arrive, second_depart, BUSY, IDLE, Q_LIMIT, timing, timing_loop, initializeSim,
    expon, exampleStart, tandemStart, TIME_LIMIT, TIME_UNSCHEDULED, Function.update_apply,
    shift_loop]

/-! ## C1 -/

/-- C1, as stated, fails: with Arrival1 scheduled at `1.0e+29` (a time that
is not the `1.0e+30` sentinel) and the other four kinds unscheduled, `timing`
selects no kind and stops with the empty-event-list error. -/
theorem timing_scheduled_kind_not_selected :
    lateArrivalState.num_events = 5 ∧
    lateArrivalState.time_next_event 1 ≠ TIME_UNSCHEDULED ∧
    timing lateArrivalState = .error .event_list_empty := by
  refine ⟨rfl, ?_, ?_⟩
  · norm_num [lateArrivalState, TIME_UNSCHEDULED]
  · norm_num [timing, timing_loop, lateArrivalState, exampleStart, TIME_LIMIT]

/-- C1, amended: when at least one of the five event kinds has a time below
`1.0e+29`, `timing` returns, the kind `k` it selects has the least of the five
times, every kind of lower ordinal has a strictly greater time (so `k` is the
lowest ordinal among ties), `sim_time` becomes that least time, and nothing
else changes. -/
theorem timing_selects_earliest (s : State) (hn : s.num_events = 5)
    (h : ∃ i, 1 ≤ i ∧ i ≤ 5 ∧ s.time_next_event i < TIME_LIMIT) :
    ∃ k, 1 ≤ k ∧ k ≤ 5 ∧
      timing s = .ok { s with next_event_type := k, sim_time := s.time_next_event k } ∧
      (∀ j, 1 ≤ j → j ≤ 5 → s.time_next_event k ≤ s.time_next_event j) ∧
      (∀ j, 1 ≤ j → j < k → s.time_next_event k < s.time_next_event j) := by
  obtain ⟨t, ht⟩ := timing_returns s hn h
  obtain ⟨h1, h2, h3, h4, _, h6, h7⟩ := timing_ok s t hn ht
  refine ⟨t.next_event_type, h1, h2, ?_, ?_, ?_⟩
  · rw [ht, ← h3]
  · intro j hj1 hj2
    rw [← h4]
    exact h6 j hj1 hj2
  · intro j hj1 hj2
    rw [← h4]
    exact h7 j hj1 hj2

/-- Witness for C1 (amended) on a calendar with a tie: Departure1 and
Departure2 both at time 4. -/
theorem timing_selects_earliest_witness :
    (tiedDeparturesState.num_events = 5 ∧
      ∃ i, 1 ≤ i ∧ i ≤ 5 ∧ tiedDeparturesState.time_next_event i < TIME_LIMIT) ∧
    ∃ k, 1 ≤ k ∧ k ≤ 5 ∧
      timing tiedDeparturesState =
        .ok { tiedDeparturesState with
              next_event_type := k, sim_time := tiedDeparturesState.time_next_event k } ∧
      (∀ j, 1 ≤ j → j ≤ 5 →
        tiedDeparturesState.time_next_event k ≤ tiedDeparturesState.time_next_event j) ∧
      (∀ j, 1 ≤ j → j < k →
        tiedDeparturesState.time_next_event k < tiedDeparturesState.time_next_event j) :=
  have hex : ∃ i, 1 ≤ i ∧ i ≤ 5 ∧ tiedDeparturesState.time_next_event i < TIME_LIMIT :=
    ⟨3, by decide, by decide, by norm_num [tiedDeparturesState, TIME_LIMIT]⟩
  ⟨⟨rfl, hex⟩, timing_selects_earliest tiedDeparturesState rfl hex⟩

/-! ## C2 -/

/-- C2: the code departs from the claim.  From the state `initialize` leaves
(whatever ran before), `arrive` and then `depart` both return, and the state
they leave has `total_of_delays1 = 0` and `total_of_delays2 = 0` but
`num_custs_delayed = 1`, not 2: station 2 is still idle with no departure
scheduled, the customer was never presented to it. -/
theorem single_customer_counted_once (s0 : State) :
    ∃ t u, arrive (initializeSim s0) = .ok t ∧ depart t = .ok u ∧
      u.total_of_delays1 = 0 ∧ u.total_of_delays2 = 0 ∧ u.num_custs_delayed = 1 ∧
      u.server2_status = IDLE ∧ u.num_in_q2 = 0 ∧
      u.time_next_event 4 = TIME_UNSCHEDULED := by
  have hidle : (initializeSim s0).server1_status ≠ BUSY := by
    show IDLE ≠ BUSY
    decide
  refine ⟨_, _, arrive_idle _ hidle, depart_empty _ ?_, ?_⟩
  · rw [initializeSim_eq]
  · rw [initializeSim_eq]
    simp [Function.update_apply]

/-! ## C3 -/

/-- The station-2 queue after `depart` when station 1's queue is not empty and
station 2 is busy with `n = num_in_q2 < Q_LIMIT` waiting: `depart` returns,
`num_in_q2` is `n + 1`, and the popped head `time_arrival1[1]` has been written
both at index `n` (by `depart` itself) and at index `n + 1` (by
`second_arrive`); the other entries are the old ones. -/
theorem depart_station2_queue (s : State) (h1 : 1 ≤ s.num_in_q1)
    (hb : s.server2_status = BUSY) (hn : s.num_in_q2 < Q_LIMIT) :
    ∃ t, depart s = .ok t ∧ t.next_event_type = s.next_event_type ∧
      t.num_in_q2 = s.num_in_q2 + 1 ∧
      t.time_arrival2 =
        Function.update (Function.update s.time_arrival2 s.num_in_q2 (s.time_arrival1 1))
          (s.num_in_q2 + 1) (s.time_arrival1 1) := by
  have hne : s.num_in_q1 ≠ 0 := by omega
  have hq : ¬ s.num_in_q2 + 1 > Q_LIMIT := by omega
  rw [depart_nonempty s hne]
  refine ⟨_, second_arrive_busy _ hb hq, rfl, rfl, ?_⟩
  dsimp only
  rw [shift_loop_head s.time_arrival1 s.num_in_q1 h1]

/-- C3: the code departs from the claim.  In the replication from
`tandemStart`, the seventh pass through the loop body handles a Departure1
event in a state with one customer waiting at station 1 (head timestamp 4) and
station 2 busy with one customer waiting (timestamp 3).  `depart` returns with
`num_in_q2 = 2` and the timestamp 4 at the new tail `time_arrival2[2]`, but
the old entry `time_arrival2[1]` has been overwritten with 4 as well: the
queue is not the old queue with one timestamp appended. -/
theorem depart_overwrites_station2_tail :
    ∃ s t, LoopHead tandemStart s ∧
      s.num_in_q1 = 1 ∧ s.server2_status = BUSY ∧ s.num_in_q2 = 1 ∧
      s.time_arrival1 1 = 4 ∧ s.time_arrival2 1 = 3 ∧
      main_loop_body s = .ok t ∧ t.next_event_type = 3 ∧
      t.num_in_q2 = 2 ∧ t.time_arrival2 1 = 4 ∧ t.time_arrival2 2 = 4 := by
  obtain ⟨s, hrun, q1, b2, q2, a1, a2, e1, e2, e3, e4, e5⟩ := tandem_sixth_head
  have hs : LoopHead tandemStart s :=
    loop_passes_loopHead tandemStart 6 _ s (LoopHead.init rfl) hrun
  have hn : s.num_events = 5 := (loopHead_inv tandemStart s hs).1.1
  have hex : ∃ i, 1 ≤ i ∧ i ≤ 5 ∧ s.time_next_event i < TIME_LIMIT :=
    ⟨3, by decide, by decide, by rw [e3]; norm_num [TIME_LIMIT]⟩
  obtain ⟨u, hu⟩ := timing_returns s hn hex
  obtain ⟨_, _, hueq, h4, _, hmin, _⟩ := timing_ok s u hn hu
  have hk : u.next_event_type = 3 := by
    have h3 := hmin 3 (by decide) (by decide)
    rw [h4, e3] at h3
    have hcases : u.next_event_type = 1 ∨ u.next_event_type = 2 ∨ u.next_event_type = 3 ∨
        u.next_event_type = 4 ∨ u.next_event_type = 5 := by omega
    rcases hcases with h | h | h | h | h
    · rw [h, e1] at h3
      norm_num at h3
    · rw [h, e2] at h3
      norm_num [TIME_UNSCHEDULED] at h3
    · exact h
    · rw [h, e4] at h3
      norm_num at h3
    · rw [h, e5] at h3
      norm_num at h3
  rw [hk] at hueq
  have htim : timing s =
      .ok { s with next_event_type := 3, sim_time := s.time_next_event 3 } :=
    hu.trans (congrArg Except.ok hueq)
  have hbody : main_loop_body s =
      depart (update_time_avg_stats
        { s with next_event_type := 3, sim_time := s.time_next_event 3 }) := by
    unfold main_loop_body
    rw [htim]
    rfl
  obtain ⟨t, ht, hty, hq, harr⟩ :=
    depart_station2_queue
      (update_time_avg_stats { s with next_event_type := 3, sim_time := s.time_next_event 3 })
      (by show 1 ≤ s.num_in_q1; omega) b2 (by show s.num_in_q2 < Q_LIMIT; rw [q2]; decide)
  have harr' : t.time_arrival2 =
      Function.update (Function.update s.time_arrival2 s.num_in_q2 (s.time_arrival1 1))
        (s.num_in_q2 + 1) (s.time_arrival1 1) := harr
  have hq2 : t.num_in_q2 = s.num_in_q2 + 1 := hq
  refine ⟨s, t, hs, q1, b2, q2, a1, a2, hbody.trans ht, hty, ?_, ?_, ?_⟩
  · rw [hq2, q2]
    rfl
  · rw [harr', q2, a1]
    simp [Function.update_apply]
  · rw [harr', q2, a1]
    simp [Function.update_apply]

/-! ## C4 -/

/-- C4: with station 1 busy and `0 ≤ num_in_q1 ≤ Q_LIMIT`, `arrive` stops with
the queue-overflow error exactly when `num_in_q1 = Q_LIMIT`; when
`num_in_q1 < Q_LIMIT` it returns, `num_in_q1` has grown by one, `sim_time` is
stored at the new tail index and every other entry of `time_arrival1` (so
every earlier queue entry) is unchanged. -/
theorem arrive_overflow_boundary (s : State) (hb : s.server1_status = BUSY)
    (_h0 : 0 ≤ s.num_in_q1) (h1 : s.num_in_q1 ≤ Q_LIMIT) :
    (arrive s = .error .queue_overflow ↔ s.num_in_q1 = Q_LIMIT) ∧
    (s.num_in_q1 < Q_LIMIT →
      ∃ t, arrive s = .ok t ∧ t.num_in_q1 = s.num_in_q1 + 1 ∧
        t.time_arrival1 t.num_in_q1 = s.sim_time ∧
        ∀ i, i ≠ s.num_in_q1 + 1 → t.time_arrival1 i = s.time_arrival1 i) := by
  have hret : s.num_in_q1 < Q_LIMIT →
      ∃ t, arrive s = .ok t ∧ t.num_in_q1 = s.num_in_q1 + 1 ∧
        t.time_arrival1 t.num_in_q1 = s.sim_time ∧
        ∀ i, i ≠ s.num_in_q1 + 1 → t.time_arrival1 i = s.time_arrival1 i := by
    intro hlt
    have hq : ¬ s.num_in_q1 + 1 > Q_LIMIT := by omega
    refine ⟨_, arrive_busy s hb hq, rfl, ?_, ?_⟩
    · simp
    · intro i hi
      simp [Function.update_apply, hi]
  refine ⟨⟨?_, ?_⟩, hret⟩
  · intro herr
    by_contra hne
    obtain ⟨t, ht, _⟩ := hret (lt_of_le_of_ne h1 hne)
    rw [ht] at herr
    exact absurd herr (by simp)
  · intro heq
    exact arrive_overflow s hb (by omega)

/-- Witness for C4: station 1 busy with two customers waiting, an arrival at
time 5. -/
theorem arrive_overflow_boundary_witness :
    (busyArrivalState.server1_status = BUSY ∧ 0 ≤ busyArrivalState.num_in_q1 ∧
      busyArrivalState.num_in_q1 ≤ Q_LIMIT) ∧
    (arrive busyArrivalState = .error .queue_overflow ↔ busyArrivalState.num_in_q1 = Q_LIMIT) ∧
    (busyArrivalState.num_in_q1 < Q_LIMIT →
      ∃ t, arrive busyArrivalState = .ok t ∧ t.num_in_q1 = busyArrivalState.num_in_q1 + 1 ∧
        t.time_arrival1 t.num_in_q1 = busyArrivalState.sim_time ∧
        ∀ i, i ≠ busyArrivalState.num_in_q1 + 1 →
          t.time_arrival1 i = busyArrivalState.time_arrival1 i) :=
  ⟨⟨rfl, by decide, by decide⟩,
    arrive_overflow_boundary busyArrivalState rfl (by decide) (by decide)⟩

/-! ## C5 -/

/-- C5: in a replication on positive input (positive means and run length,
every `log(lcgrand(1))` negative), at every loop head no entry of the event
list lies before `sim_time`, and a call of `timing` there leaves `sim_time` at
least as large as it was. -/
theorem clock_monotone (s0 s t : State) (hpos : PositiveInput s0) (hs : LoopHead s0 s)
    (ht : timing s = .ok t) :
    s.sim_time ≤ t.sim_time ∧ ∀ i, 1 ≤ i → i ≤ 5 → s.sim_time ≤ s.time_next_event i := by
  obtain ⟨⟨hn, _, _⟩, hsched⟩ := loopHead_inv s0 s hs
  obtain ⟨_, _, hall⟩ := hsched hpos
  obtain ⟨h1, h2, _, h4, _, _, _⟩ := timing_ok s t hn ht
  refine ⟨?_, hall⟩
  rw [h4]
  exact hall _ h1 h2

/-- Witness for C5: the second loop head of the replication from
`exampleStart` (clock at 1), where `timing` moves the clock to 3/2. -/
theorem clock_monotone_witness :
    PositiveInput exampleStart ∧
    ∃ s t, LoopHead exampleStart s ∧ timing s = .ok t ∧ s.sim_time = 1 ∧
      s.sim_time ≤ t.sim_time ∧ ∀ i, 1 ≤ i → i ≤ 5 → s.sim_time ≤ s.time_next_event i := by
  obtain ⟨s, hbody, hty, htime, _, _, h1, _⟩ := example_first_pass
  have hs : LoopHead exampleStart s :=
    LoopHead.step (LoopHead.init rfl) hbody (by rw [hty]; decide)
  have hn : s.num_events = 5 := (loopHead_inv exampleStart s hs).1.1
  obtain ⟨t, ht⟩ := timing_returns s hn ⟨1, by decide, by decide, by
    rw [h1]
    norm_num [TIME_LIMIT]⟩
  exact ⟨example_positive, s, t, hs, ht, htime, clock_monotone exampleStart s t example_positive hs ht⟩

/-! ## C6 -/

/-- C6: in a replication, after every pass through the loop body that returns
(that is, after every event handler that returns), both queue lengths lie in
`0 .. Q_LIMIT`. -/
theorem queue_lengths_in_range (s0 s t : State) (hs : LoopHead s0 s)
    (ht : main_loop_body s = .ok t) :
    0 ≤ t.num_in_q1 ∧ t.num_in_q1 ≤ Q_LIMIT ∧ 0 ≤ t.num_in_q2 ∧ t.num_in_q2 ≤ Q_LIMIT :=
  (main_loop_body_inv s t ht (loopHead_inv s0 s hs).1).1.2.2

/-- Witness for C6: the first pass through the loop body from
`exampleStart`. -/
theorem queue_lengths_in_range_witness :
    ∃ t, main_loop_body (initializeSim exampleStart) = .ok t ∧
      0 ≤ t.num_in_q1 ∧ t.num_in_q1 ≤ Q_LIMIT ∧ 0 ≤ t.num_in_q2 ∧ t.num_in_q2 ≤ Q_LIMIT := by
  obtain ⟨t, hbody, _⟩ := example_first_pass
  exact ⟨t, hbody,
    queue_lengths_in_range exampleStart (initializeSim exampleStart) t (LoopHead.init rfl) hbody⟩

/-! ## C7 -/

/-- C7: at a loop head `s` of a replication, where `time_last_event` equals
`sim_time`, let `timing` return `t`, so that `t.sim_time` is the time of the
chosen event.  Then `update_time_avg_stats` adds `num_in_q1 * elapsed`,
`num_in_q2 * elapsed`, `server1_status * elapsed` and `server2_status * elapsed`
to the four area accumulators, with `elapsed = t.sim_time - s.sim_time` and the
queue lengths and statuses of the loop head, which are still the ones in the
state the handler is then dispatched on; the marker `time_last_event` equals
`sim_time` again after the update and after the handler; and on positive input
`time_last_event ≤ sim_time` also holds between `timing` and the update. -/
theorem area_accumulation (s0 s t : State) (hs : LoopHead s0 s) (ht : timing s = .ok t) :
    t.sim_time = s.time_next_event t.next_event_type ∧
    s.time_last_event = s.sim_time ∧
    (update_time_avg_stats t).area_num_in_q1 =
      s.area_num_in_q1 + s.num_in_q1 * (t.sim_time - s.sim_time) ∧
    (update_time_avg_stats t).area_num_in_q2 =
      s.area_num_in_q2 + s.num_in_q2 * (t.sim_time - s.sim_time) ∧
    (update_time_avg_stats t).area_server1_status =
      s.area_server1_status + s.server1_status * (t.sim_time - s.sim_time) ∧
    (update_time_avg_stats t).area_server2_status =
      s.area_server2_status + s.server2_status * (t.sim_time - s.sim_time) ∧
    main_loop_body s = dispatch (update_time_avg_stats t) ∧
    ((update_time_avg_stats t).num_in_q1 = s.num_in_q1 ∧
      (update_time_avg_stats t).num_in_q2 = s.num_in_q2 ∧
      (update_time_avg_stats t).server1_status = s.server1_status ∧
      (update_time_avg_stats t).server2_status = s.server2_status) ∧
    (update_time_avg_stats t).time_last_event = (update_time_avg_stats t).sim_time ∧
    (∀ u, main_loop_body s = .ok u → u.time_last_event = u.sim_time) ∧
    (PositiveInput s0 → t.time_last_event ≤ t.sim_time) := by
  obtain ⟨hinv, hsched⟩ := loopHead_inv s0 s hs
  obtain ⟨hn, hlast, hq⟩ := hinv
  obtain ⟨h1, h2, _, h4, _, _, _⟩ := timing_ok s t hn ht
  have hbody : main_loop_body s = dispatch (update_time_avg_stats t) := by
    unfold main_loop_body
    rw [ht]
  have hmono : PositiveInput s0 → s.sim_time ≤ t.sim_time := by
    intro hpos
    rw [h4]
    exact (hsched hpos).2.2 _ h1 h2
  have hafter : ∀ u, main_loop_body s = .ok u → u.time_last_event = u.sim_time :=
    fun u hu => (main_loop_body_inv s u hu ⟨hn, hlast, hq⟩).1.2.1
  obtain ⟨k, m, rfl⟩ := timing_frame s t ht
  refine ⟨h4, hlast, ?_, ?_, ?_, ?_, hbody, ⟨rfl, rfl, rfl, rfl⟩, rfl, hafter, ?_⟩
  · simp [update_time_avg_stats, hlast]
  · simp [update_time_avg_stats, hlast]
  · simp [update_time_avg_stats, hlast]
  · simp [update_time_avg_stats, hlast]
  · intro hpos
    have := hmono hpos
    dsimp only at this ⊢
    rw [hlast]
    exact this

/-- Witness for C7: the second loop head of the replication from
`exampleStart` (clock at 1, server 1 busy), where the next event is the
departure from station 1 at 3/2. -/
theorem area_accumulation_witness :
    ∃ s t, LoopHead exampleStart s ∧ timing s = .ok t ∧
      s.sim_time = 1 ∧ s.server1_status = BUSY ∧
      (update_time_avg_stats t).area_server1_status =
        s.area_server1_status + s.server1_status * (t.sim_time - s.sim_time) ∧
      (update_time_avg_stats t).area_num_in_q1 =
        s.area_num_in_q1 + s.num_in_q1 * (t.sim_time - s.sim_time) ∧
      main_loop_body s = dispatch (update_time_avg_stats t) ∧
      s.time_last_event = s.sim_time := by
  obtain ⟨s, hbody, hty, htime, hbusy, _, h1, _⟩ := example_first_pass
  have hs : LoopHead exampleStart s :=
    LoopHead.step (LoopHead.init rfl) hbody (by rw [hty]; decide)
  have hn : s.num_events = 5 := (loopHead_inv exampleStart s hs).1.1
  obtain ⟨t, ht⟩ := timing_returns s hn ⟨1, by decide, by decide, by
    rw [h1]
    norm_num [TIME_LIMIT]⟩
  obtain ⟨_, a2, a3, _, a5, _, a7, _⟩ := area_accumulation exampleStart s t hs ht
  exact ⟨s, t, hs, ht, htime, hbusy, a5, a3, a7, a2⟩

/-! ## C9 -/

/-- C9: the code departs from the claim.  When station 1's queue is empty,
`depart` returns without executing `second_arrive`: everything of station 2,
the counter `num_custs_delayed` and the random stream are as before the call,
whereas every returning execution of `second_arrive` either lengthens station
2's queue by one or turns server 2 from not busy to busy and counts a delay. -/
theorem depart_empty_queue_skips_station2 (s : State) :
    (∃ u, depart { s with num_in_q1 := 0 } = .ok u ∧
      u.server2_status = s.server2_status ∧ u.num_in_q2 = s.num_in_q2 ∧
      u.time_arrival2 = s.time_arrival2 ∧ u.time_next_event 4 = s.time_next_event 4 ∧
      u.total_of_delays2 = s.total_of_delays2 ∧
      u.num_custs_delayed = s.num_custs_delayed ∧ u.log_lcgrand = s.log_lcgrand) ∧
    (∀ x r, second_arrive x = .ok r →
      r.num_in_q2 = x.num_in_q2 + 1 ∨
      (x.server2_status ≠ BUSY ∧ r.server2_status = BUSY ∧
        r.num_custs_delayed = x.num_custs_delayed + 1)) := by
  constructor
  · refine ⟨_, depart_empty _ rfl, rfl, rfl, rfl, ?_, rfl, rfl, rfl⟩
    simp [Function.update_apply]
  · intro x r hr
    by_cases hb : x.server2_status = BUSY
    · by_cases hq : x.num_in_q2 + 1 > Q_LIMIT
      · rw [second_arrive_overflow x hb hq] at hr
        exact absurd hr (by simp)
      · rw [second_arrive_busy x hb hq] at hr
        left
        rw [← Except.ok.inj hr]
    · rw [second_arrive_idle x hb] at hr
      right
      rw [← Except.ok.inj hr]
      exact ⟨hb, rfl, rfl⟩

/-! ## C10 -/

/-- C10: with `1 ≤ num_in_q2 ≤ Q_LIMIT`, `second_depart` pops the head of
station 2's queue (`num_in_q2` is one less and the new entries
`1 .. num_in_q2 - 1` are the old entries `2 .. num_in_q2`), adds
`sim_time - time_arrival2[1]` to `total_of_delays2`, adds one to
`num_custs_delayed`, sets `time_next_event[4]` to `sim_time` plus the next
`expon(mean_service2)` variate, and leaves `server1_status`, `num_in_q1`,
`time_arrival1`, `total_of_delays1`, `time_next_event[1]` and
`time_next_event[3]` as they were; with `num_in_q2 = 0` it sets server 2 idle
and `time_next_event[4]` to `1.0e+30`. -/
theorem second_depart_spec (s : State) :
    (1 ≤ s.num_in_q2 → s.num_in_q2 ≤ Q_LIMIT →
      (second_depart s).num_in_q2 = s.num_in_q2 - 1 ∧
      (∀ i, 1 ≤ i → i ≤ s.num_in_q2 - 1 →
        (second_depart s).time_arrival2 i = s.time_arrival2 (i + 1)) ∧
      (second_depart s).total_of_delays2 =
        s.total_of_delays2 + (s.sim_time - s.time_arrival2 1) ∧
      (second_depart s).num_custs_delayed = s.num_custs_delayed + 1 ∧
      (second_depart s).time_next_event 4 = s.sim_time + (expon s.mean_service2 s).1 ∧
      (second_depart s).server1_status = s.server1_status ∧
      (second_depart s).num_in_q1 = s.num_in_q1 ∧
      (second_depart s).time_arrival1 = s.time_arrival1 ∧
      (second_depart s).total_of_delays1 = s.total_of_delays1 ∧
      (second_depart s).time_next_event 1 = s.time_next_event 1 ∧
      (second_depart s).time_next_event 3 = s.time_next_event 3) ∧
    (s.num_in_q2 = 0 →
      (second_depart s).server2_status = IDLE ∧
      (second_depart s).time_next_event 4 = TIME_UNSCHEDULED) := by
  constructor
  · intro h1 _
    have hne : s.num_in_q2 ≠ 0 := by omega
    rw [second_depart_nonempty s hne]
    refine ⟨rfl, ?_, rfl, rfl, ?_, rfl, rfl, rfl, rfl, ?_, ?_⟩
    · intro i hi1 hi2
      dsimp only
      rw [shift_loop_apply]
      have hk : ((s.num_in_q2 - 1).toNat : Int) = s.num_in_q2 - 1 := by omega
      have hin : (1 : Int) ≤ i ∧ i < 1 + ((s.num_in_q2 - 1).toNat : Int) := by
        rw [hk]
        omega
      rw [if_pos hin]
    · simp [expon]
    · simp [Function.update_apply]
    · simp [Function.update_apply]
  · intro h0
    rw [second_depart_empty s h0]
    exact ⟨rfl, by simp⟩

/-- Witness for C10: station 2 busy with three customers waiting (first
part), and with nobody waiting (second part). -/
theorem second_depart_spec_witness :
    ((1 ≤ secondDepartureState.num_in_q2 ∧ secondDepartureState.num_in_q2 ≤ Q_LIMIT) ∧
      (second_depart secondDepartureState).num_in_q2 = 2 ∧
      (second_depart secondDepartureState).time_arrival2 1 = 3 ∧
      (second_depart secondDepartureState).time_arrival2 2 = 5 ∧
      (second_depart secondDepartureState).total_of_delays2 = 7 ∧
      (second_depart secondDepartureState).num_custs_delayed = 6 ∧
      (second_depart secondDepartureState).time_next_event 4 = 9 + 3 / 10 ∧
      (second_depart secondDepartureState).time_next_event 3 = 10) ∧
    (lastDepartureState.num_in_q2 = 0 ∧
      (second_depart lastDepartureState).server2_status = IDLE ∧
      (second_depart lastDepartureState).time_next_event 4 = TIME_UNSCHEDULED) := by
  have h := (second_depart_spec secondDepartureState).1 (by decide) (by decide)
  have h0 := (second_depart_spec lastDepartureState).2 rfl
  obtain ⟨a1, a2, a3, a4, a5, _, _, _, _, _, a6⟩ := h
  refine ⟨⟨⟨by decide, by decide⟩, ?_, ?_, ?_, ?_, ?_, ?_, ?_⟩, rfl, h0⟩
  · rw [a1]
    rfl
  · rw [a2 1 (by decide) (by decide)]
    simp [secondDepartureState]
  · rw [a2 2 (by decide) (by decide)]
    simp [secondDepartureState]
  · rw [a3]
    norm_num [secondDepartureState, exampleStart]
  · rw [a4]
    rfl
  · rw [a5]
    norm_num [secondDepartureState, exampleStart, expon]
  · rw [a6]
    simp [secondDepartureState]

/-! ## What the handlers leave alone -/

/-- The relation `Frame` is transitive. -/
theorem Frame.trans {x m u : State} (h1 : Frame x m) (h2 : Frame m u) : Frame x u := by
  obtain ⟨a1, a2, a3, a4, a5, a6, a7, a8, a9, a10, a11, a12, a13, a14⟩ := h1
  obtain ⟨b1, b2, b3, b4, b5, b6, b7, b8, b9, b10, b11, b12, b13, b14⟩ := h2
  exact ⟨b1.trans a1, b2.trans a2, b3.trans a3, b4.trans a4, b5.trans a5, b6.trans a6,
    b7.trans a7, b8.trans a8, b9.trans a9, b10.trans a10, b11.trans a11, b12.trans a12,
    b13.trans a13, b14.trans a14⟩

/-- The handler `arrive` respects `Frame`. -/
theorem arrive_frame (x u : State) (h : arrive x = .ok u) : Frame x u := by
  by_cases hb : x.server1_status = BUSY
  · by_cases hq : x.num_in_q1 + 1 > Q_LIMIT
    · rw [arrive_overflow x hb hq] at h
      exact absurd h (by simp)
    · rw [arrive_busy x hb hq] at h
      rw [← Except.ok.inj h]
      simp [Frame, Function.update_apply]
  · rw [arrive_idle x hb] at h
    rw [← Except.ok.inj h]
    simp [Frame, Function.update_apply]

/-- The handler `second_arrive` respects `Frame`. -/
theorem second_arrive_frame (x u : State) (h : second_arrive x = .ok u) : Frame x u := by
  by_cases hb : x.server2_status = BUSY
  · by_cases hq : x.num_in_q2 + 1 > Q_LIMIT
    · rw [second_arrive_overflow x hb hq] at h
      exact absurd h (by simp)
    · rw [second_arrive_busy x hb hq] at h
      rw [← Except.ok.inj h]
      simp [Frame]
  · rw [second_arrive_idle x hb] at h
    rw [← Except.ok.inj h]
    simp [Frame, Function.update_apply]

/-- The handler `depart` respects `Frame`. -/
theorem depart_frame (x u : State) (h : depart x = .ok u) : Frame x u := by
  by_cases h0 : x.num_in_q1 = 0
  · rw [depart_empty x h0] at h
    rw [← Except.ok.inj h]
    simp [Frame, Function.update_apply]
  · rw [depart_nonempty_eq x h0] at h
    have hm : Frame x (depart_station1 x) := by
      simp [Frame, depart_station1, Function.update_apply]
    exact hm.trans (second_arrive_frame _ u h)

/-- The handler `second_depart` respects `Frame`. -/
theorem second_depart_frame (x : State) : Frame x (second_depart x) := by
  by_cases h0 : x.num_in_q2 = 0
  · rw [second_depart_empty x h0]
    simp [Frame, Function.update_apply]
  · rw [second_depart_nonempty x h0]
    simp [Frame, Function.update_apply]

/-- The `switch` of `main` respects `Frame`, whichever handler runs. -/
theorem dispatch_frame (x u : State) (h : dispatch x = .ok u) : Frame x u := by
  have hrefl : Frame x x := by simp [Frame]
  unfold dispatch at h
  split_ifs at h
  · exact arrive_frame x u h
  · exact second_arrive_frame x u h
  · exact depart_frame x u h
  · rw [← Except.ok.inj h]
    exact second_depart_frame x
  · rw [← Except.ok.inj h]
    exact hrefl
  · rw [← Except.ok.inj h]
    exact hrefl

/-- A pass through the loop body, taken apart: `timing` returns a state `t`
that differs from `s` in the event type and the clock only, its event type
lies in `1 .. 5`, and the handler runs on `update_time_avg_stats t` and
respects `Frame`. -/
theorem main_loop_body_parts (s u : State) (hn : s.num_events = 5)
    (h : main_loop_body s = .ok u) :
    ∃ t, timing s = .ok t ∧ dispatch (update_time_avg_stats t) = .ok u ∧
      Frame (update_time_avg_stats t) u ∧ 1 ≤ t.next_event_type ∧ t.next_event_type ≤ 5 ∧
      t.time_next_event = s.time_next_event ∧ t.time_end = s.time_end ∧
      u.sim_time = t.sim_time ∧ u.next_event_type = t.next_event_type ∧
      u.time_end = s.time_end ∧ u.time_next_event 2 = s.time_next_event 2 ∧
      u.time_next_event 5 = s.time_next_event 5 := by
  obtain ⟨t, ht, hd⟩ := main_loop_body_ok s u h
  have hf := dispatch_frame _ u hd
  obtain ⟨h1, h2, _⟩ := timing_ok s t hn ht
  obtain ⟨k, m, rfl⟩ := timing_frame s t ht
  obtain ⟨f1, _, f3, _, f5, _, _, _, _, _, _, _, f13, f14⟩ := hf
  exact ⟨_, ht, hd, dispatch_frame _ u hd, h1, h2, rfl, rfl, f3, f1, f5, f13, f14⟩

/-- The entries 2 and 5 of the event list are as `initialize` set them at
every loop head. -/
theorem loopHead_calendar (s0 s : State) (h : LoopHead s0 s) : CalendarFixed s0 s := by
  induction h with
  | init hn =>
    rw [initializeSim_eq]
    refine ⟨rfl, ?_, ?_⟩ <;> simp [Function.update_apply]
  | step hs hbody _ ih =>
    obtain ⟨c1, c2, c3⟩ := ih
    obtain ⟨_, _, _, _, _, _, _, _, _, _, e1, e2, e3⟩ :=
      main_loop_body_parts _ _ (loopHead_inv s0 _ hs).1.1 hbody
    exact ⟨e1.trans c1, e3.trans c2, e2.trans c3⟩

/-- At a loop head of a replication with `time_end < 1.0e+29`, `timing`
returns. -/
theorem loopHead_timing_returns (s0 s : State) (h1 : s0.time_end < TIME_LIMIT)
    (hs : LoopHead s0 s) : ∃ t, timing s = .ok t := by
  obtain ⟨_, c2, _⟩ := loopHead_calendar s0 s hs
  exact timing_returns s (loopHead_inv s0 s hs).1.1 ⟨5, by decide, by decide, by rw [c2]; exact h1⟩

/-- The event that the seventh pass of the replication from `tandemStart`
handles: a Departure1 at time 13, with one customer waiting at station 1 and
station 2 busy with one customer waiting. -/
theorem tandem_seventh_event :
    ∃ s t, LoopHead tandemStart s ∧ timing s = .ok t ∧ t.next_event_type = 3 ∧
      t.sim_time = 13 ∧
      s.num_in_q1 = 1 ∧ s.server2_status = BUSY ∧ s.num_in_q2 = 1 ∧
      s.time_arrival1 1 = 4 ∧ s.time_arrival2 1 = 3 := by
  obtain ⟨s, hrun, q1, b2, q2, a1, a2, e1, e2, e3, e4, e5⟩ := tandem_sixth_head
  have hs : LoopHead tandemStart s :=
    loop_passes_loopHead tandemStart 6 _ s (LoopHead.init rfl) hrun
  have hn : s.num_events = 5 := (loopHead_inv tandemStart s hs).1.1
  have hex : ∃ i, 1 ≤ i ∧ i ≤ 5 ∧ s.time_next_event i < TIME_LIMIT :=
    ⟨3, by decide, by decide, by rw [e3]; norm_num [TIME_LIMIT]⟩
  obtain ⟨u, hu⟩ := timing_returns s hn hex
  obtain ⟨_, _, _, h4, _, hmin, _⟩ := timing_ok s u hn hu
  have hk : u.next_event_type = 3 := by
    have h3 := hmin 3 (by decide) (by decide)
    rw [h4, e3] at h3
    have hcases : u.next_event_type = 1 ∨ u.next_event_type = 2 ∨ u.next_event_type = 3 ∨
        u.next_event_type = 4 ∨ u.next_event_type = 5 := by omega
    rcases hcases with h | h | h | h | h
    · rw [h, e1] at h3
      norm_num at h3
    · rw [h, e2] at h3
      norm_num [TIME_UNSCHEDULED] at h3
    · exact h
    · rw [h, e4] at h3
      norm_num at h3
    · rw [h, e5] at h3
      norm_num at h3
  have htime : u.sim_time = 13 := by rw [h4, hk, e3]
  exact ⟨s, u, hs, hu, hk, htime, q1, b2, q2, a1, a2⟩

/-- A call of `dispatch` never stops the program with the empty-list error:
the handlers only ever stop it with the queue-overflow error. -/
theorem dispatch_not_empty_list (x : State) : dispatch x ≠ .error .event_list_empty := by
  have hsa : ∀ y : State, second_arrive y ≠ .error .event_list_empty := by
    intro y hy
    by_cases hb : y.server2_status = BUSY
    · by_cases hq : y.num_in_q2 + 1 > Q_LIMIT
      · rw [second_arrive_overflow _ hb hq] at hy
        exact absurd hy (by simp)
      · rw [second_arrive_busy _ hb hq] at hy
        exact absurd hy (by simp)
    · rw [second_arrive_idle _ hb] at hy
      exact absurd hy (by simp)
  intro h
  unfold dispatch at h
  split_ifs at h
  · by_cases hb : x.server1_status = BUSY
    · by_cases hq : x.num_in_q1 + 1 > Q_LIMIT
      · rw [arrive_overflow _ hb hq] at h
        exact absurd h (by simp)
      · rw [arrive_busy _ hb hq] at h
        exact absurd h (by simp)
    · rw [arrive_idle _ hb] at h
      exact absurd h (by simp)
  · exact hsa x h
  · by_cases h0 : x.num_in_q1 = 0
    · rw [depart_empty _ h0] at h
      exact absurd h (by simp)
    · rw [depart_nonempty_eq _ h0] at h
      exact hsa _ h

/-! ## C11 -/

/-- C11: in a replication with `0 < time_end < 1.0e+29`, at every loop head
`time_next_event[5]` equals `time_end` (and still does after `timing` and
after the handler of the pass), so `timing` returns there: the empty-list
branch (`next_event_type == 0`, `exit(1)`) is not taken. -/
theorem end_of_run_scheduled (s0 s : State) (_h0 : 0 < s0.time_end)
    (h1 : s0.time_end < TIME_LIMIT) (hs : LoopHead s0 s) :
    s.time_next_event 5 = s0.time_end ∧
    (∃ t, timing s = .ok t ∧ t.next_event_type ≠ 0 ∧ t.time_next_event 5 = s0.time_end) ∧
    timing s ≠ .error .event_list_empty ∧
    main_loop_body s ≠ .error .event_list_empty ∧
    ∀ u, main_loop_body s = .ok u → u.time_next_event 5 = s0.time_end := by
  obtain ⟨_, c2, _⟩ := loopHead_calendar s0 s hs
  have hn : s.num_events = 5 := (loopHead_inv s0 s hs).1.1
  obtain ⟨t, ht⟩ := loopHead_timing_returns s0 s h1 hs
  obtain ⟨k1, _, _⟩ := timing_ok s t hn ht
  have hne : timing s ≠ .error .event_list_empty := by
    rw [ht]
    simp
  refine ⟨c2, ⟨t, ht, by omega, ?_⟩, hne, ?_, ?_⟩
  · obtain ⟨k, m, rfl⟩ := timing_frame s t ht
    exact c2
  · intro hbody
    unfold main_loop_body at hbody
    rw [ht] at hbody
    exact dispatch_not_empty_list _ hbody
  · intro u hu
    obtain ⟨_, _, _, _, _, _, _, _, _, _, _, _, e3⟩ := main_loop_body_parts s u hn hu
    exact e3.trans c2

/-- Witness for C11: the second loop head of the replication from
`exampleStart`, whose run length is 1000. -/
theorem end_of_run_scheduled_witness :
    (0 < exampleStart.time_end ∧ exampleStart.time_end < TIME_LIMIT) ∧
    ∃ s, LoopHead exampleStart s ∧ s.sim_time = 1 ∧
      s.time_next_event 5 = 1000 ∧
      (∃ t, timing s = .ok t ∧ t.next_event_type ≠ 0 ∧ t.time_next_event 5 = 1000) ∧
      timing s ≠ .error .event_list_empty := by
  have h0 : 0 < exampleStart.time_end := by norm_num [exampleStart]
  have h1 : exampleStart.time_end < TIME_LIMIT := by norm_num [exampleStart, TIME_LIMIT]
  obtain ⟨s, hbody, hty, htime, _⟩ := example_first_pass
  have hs : LoopHead exampleStart s :=
    LoopHead.step (LoopHead.init rfl) hbody (by rw [hty]; decide)
  obtain ⟨a1, a2, a3, _, _⟩ := end_of_run_scheduled exampleStart s h0 h1 hs
  have he : exampleStart.time_end = 1000 := rfl
  rw [he] at a1 a2
  exact ⟨⟨h0, h1⟩, s, hs, htime, a1, a2, a3⟩

/-! ## C12 -/

/-- The scan of `timing` over the five kinds leaves its starting pair
`(1.0e+29, 0)` unchanged exactly when no kind has a time below `1.0e+29`. -/
theorem timing_loop_unchanged (tne : Int → ℚ)
    (h : ∀ i, 1 ≤ i → i ≤ 5 → TIME_LIMIT ≤ tne i) :
    timing_loop tne 5 1 (TIME_LIMIT, 0) = (TIME_LIMIT, 0) := by
  obtain ⟨_, _, hC⟩ := timing_loop_spec tne 5 1 TIME_LIMIT 0
  rcases hC with ⟨heq, _⟩ | ⟨h1, h2, h3, h4, _⟩
  · exact heq
  · have := h _ h1 (by push_cast at h2; omega)
    rw [← h3] at this
    exact absurd h4 (not_lt.mpr this)

/-- The function `timing_exit_state` stops and returns exactly as `timing`
does. -/
theorem timing_exit_state_agrees (s : State) :
    (timing_exit_state s).mapError Prod.fst = timing s := by
  unfold timing_exit_state timing
  dsimp only
  split_ifs <;> rfl

/-- C12, as stated, fails in its last part: with EndOfRun scheduled at
`5.0e+29` (a time that is not the `1.0e+30` sentinel) and the other four kinds
unscheduled, `timing` stops with the empty-event-list error. -/
theorem timing_fails_with_late_end :
    lateEndState.num_events = 5 ∧
    lateEndState.time_next_event 5 ≠ TIME_UNSCHEDULED ∧
    timing lateEndState = .error .event_list_empty := by
  refine ⟨rfl, ?_, ?_⟩
  · norm_num [lateEndState, TIME_UNSCHEDULED]
  · norm_num [timing, timing_loop, lateEndState, exampleStart, TIME_LIMIT]

/-- C12, amended: with the five event kinds of `main`, `timing` stops with the
empty-event-list error exactly when none of the five times is below
`1.0e+29`.  In particular it stops when all five hold the `1.0e+30` sentinel,
and then the globals at the exit are those of the call with `next_event_type`
set to 0, so `sim_time` is unchanged, and the pass through the loop body stops
without dispatching a handler.  It returns when some kind has a time below
`1.0e+29`. -/
theorem timing_empty_list (s : State) (hn : s.num_events = 5) :
    (timing s = .error .event_list_empty ↔
      ∀ i, 1 ≤ i → i ≤ 5 → TIME_LIMIT ≤ s.time_next_event i) ∧
    ((∀ i, 1 ≤ i → i ≤ 5 → s.time_next_event i = TIME_UNSCHEDULED) →
      timing s = .error .event_list_empty ∧
      timing_exit_state s = .error (.event_list_empty, { s with next_event_type := 0 }) ∧
      main_loop_body s = .error .event_list_empty) ∧
    ((∃ i, 1 ≤ i ∧ i ≤ 5 ∧ s.time_next_event i < TIME_LIMIT) → ∃ t, timing s = .ok t) := by
  have h5 : s.num_events.toNat = 5 := by rw [hn]; rfl
  have herr : (∀ i, 1 ≤ i → i ≤ 5 → TIME_LIMIT ≤ s.time_next_event i) →
      timing s = .error .event_list_empty ∧
      timing_exit_state s = .error (.event_list_empty, { s with next_event_type := 0 }) := by
    intro hall
    have hloop := timing_loop_unchanged s.time_next_event hall
    constructor
    · unfold timing
      rw [h5, hloop]
      rfl
    · unfold timing_exit_state
      rw [h5, hloop]
      rfl
  refine ⟨⟨?_, fun hall => (herr hall).1⟩, ?_, timing_returns s hn⟩
  · intro he i hi1 hi2
    by_contra hlt
    obtain ⟨t, ht⟩ := timing_returns s hn ⟨i, hi1, hi2, not_le.mp hlt⟩
    rw [ht] at he
    exact absurd he (by simp)
  · intro hall
    have hall' : ∀ i, 1 ≤ i → i ≤ 5 → TIME_LIMIT ≤ s.time_next_event i := by
      intro i hi1 hi2
      rw [hall i hi1 hi2]
      exact le_of_lt time_limit_lt_unscheduled
    obtain ⟨e1, e2⟩ := herr hall'
    refine ⟨e1, e2, ?_⟩
    unfold main_loop_body
    rw [e1]

/-- Witness for C12 (amended): all five kinds at the sentinel, the clock at
7. -/
theorem timing_empty_list_witness :
    emptyCalendarState.num_events = 5 ∧
    (∀ i, 1 ≤ i → i ≤ 5 → emptyCalendarState.time_next_event i = TIME_UNSCHEDULED) ∧
    timing emptyCalendarState = .error .event_list_empty ∧
    (∃ x, timing_exit_state emptyCalendarState = .error (.event_list_empty, x) ∧
      x.sim_time = 7 ∧ x.next_event_type = 0) ∧
    main_loop_body emptyCalendarState = .error .event_list_empty := by
  have hall : ∀ i, 1 ≤ i → i ≤ 5 → emptyCalendarState.time_next_event i = TIME_UNSCHEDULED := by
    intro i _ _
    norm_num [emptyCalendarState, TIME_UNSCHEDULED]
  obtain ⟨e1, e2, e3⟩ := (timing_empty_list emptyCalendarState rfl).2.1 hall
  exact ⟨rfl, hall, e1, ⟨_, e2, rfl, rfl⟩, e3⟩

/-! ## C14 -/

/-- The replication from `shortRunStart`: the first arrival is due at 1, after
the end of the run at 1/2, so the first pass through the loop body handles the
EndOfRun event with no customer delayed. -/
theorem short_run_pass :
    ∃ u, main_loop_body (initializeSim shortRunStart) = .ok u ∧ u.next_event_type = 5 ∧
      u.sim_time = 1 / 2 ∧ u.num_custs_delayed = 0 ∧
      u.total_of_delays1 = 0 ∧ u.total_of_delays2 = 0 ∧
      u.area_num_in_q1 = 0 ∧ u.area_num_in_q2 = 0 ∧
      u.area_server1_status = 0 ∧ u.area_server2_status = 0 := by
  norm_num [main_loop_body, dispatch, update_time_avg_stats, report, BUSY, IDLE, timing,
    timing_loop, initializeSim, expon, exampleStart, shortRunStart, TIME_LIMIT,
    TIME_UNSCHEDULED, Function.update_apply]

/-- C14, as stated, fails: in the replication from `shortRunStart` the first
event is EndOfRun, `report` runs with `num_custs_delayed = 0`, and the two
average delays are the divisions `0 / 0`: the divisor of both is
`num_custs_delayed`, which is zero. -/
theorem report_divides_by_zero_count :
    ∃ u, main_loop_body (initializeSim shortRunStart) = .ok u ∧ u.next_event_type = 5 ∧
      u.num_custs_delayed = 0 ∧
      report_divisions u =
        [(0, 0), (0, 0), (0, 1 / 2), (0, 1 / 2), (0, 1 / 2), (0, 1 / 2)] := by
  obtain ⟨u, h1, h2, h3, h4, h5, h6, h7, h8, h9, h10⟩ := short_run_pass
  refine ⟨u, h1, h2, h4, ?_⟩
  simp [report_divisions, h3, h4, h5, h6, h7, h8, h9, h10]

/-- C14, amended: `report` has no guard.  In every state with
`num_custs_delayed = 0` it changes no global and performs the divisions
`total_of_delays1 / num_custs_delayed` and `total_of_delays2 /
num_custs_delayed`, both with the divisor zero, before the four divisions by
`sim_time`.  Such a state is reached in every replication with
`time_end < 1.0e+29` whose first interarrival time exceeds `time_end`: the
first event handled is EndOfRun, and `report` performs `0 / 0` twice. -/
theorem report_unguarded (s0 : State) (hn : s0.num_events = 5)
    (h1 : s0.time_end < TIME_LIMIT)
    (hlate : s0.time_end < -s0.mean_interarrival * s0.log_lcgrand 0) :
    (∀ s : State, s.num_custs_delayed = 0 →
      report s = s ∧
      report_divisions s =
        [(s.total_of_delays1, 0), (s.total_of_delays2, 0), (s.area_num_in_q1, s.sim_time),
         (s.area_num_in_q2, s.sim_time), (s.area_server1_status, s.sim_time),
         (s.area_server2_status, s.sim_time)]) ∧
    ∃ u, main_loop_body (initializeSim s0) = .ok u ∧ u.next_event_type = 5 ∧
      u.num_custs_delayed = 0 ∧
      report_divisions u =
        [(0, 0), (0, 0), (0, s0.time_end), (0, s0.time_end), (0, s0.time_end),
         (0, s0.time_end)] := by
  constructor
  · intro s h
    refine ⟨rfl, ?_⟩
    simp [report_divisions, h]
  · have hn' : (initializeSim s0).num_events = 5 := hn
    have e1 : (initializeSim s0).time_next_event 1 =
        0 + -s0.mean_interarrival * s0.log_lcgrand 0 := by
      rw [initializeSim_eq]
      simp [Function.update_apply]
    have e2 : (initializeSim s0).time_next_event 2 = TIME_UNSCHEDULED := by
      rw [initializeSim_eq]
      simp [Function.update_apply]
    have e3 : (initializeSim s0).time_next_event 3 = TIME_UNSCHEDULED := by
      rw [initializeSim_eq]
      simp [Function.update_apply]
    have e4 : (initializeSim s0).time_next_event 4 = TIME_UNSCHEDULED := by
      rw [initializeSim_eq]
      simp [Function.update_apply]
    have e5 : (initializeSim s0).time_next_event 5 = s0.time_end := by
      rw [initializeSim_eq]
      simp [Function.update_apply]
    obtain ⟨t, ht⟩ := timing_returns _ hn' ⟨5, by decide, by decide, by rw [e5]; exact h1⟩
    obtain ⟨k1, k5, _, h4, _, hmin, _⟩ := timing_ok _ t hn' ht
    have hlim := time_limit_lt_unscheduled
    have hk : t.next_event_type = 5 := by
      have h5 := hmin 5 (by decide) (by decide)
      rw [h4, e5] at h5
      have hcases : t.next_event_type = 1 ∨ t.next_event_type = 2 ∨ t.next_event_type = 3 ∨
          t.next_event_type = 4 ∨ t.next_event_type = 5 := by omega
      rcases hcases with h | h | h | h | h
      · rw [h, e1] at h5
        linarith
      · rw [h, e2] at h5
        linarith
      · rw [h, e3] at h5
        linarith
      · rw [h, e4] at h5
        linarith
      · exact h
    have hsim : t.sim_time = s0.time_end := by rw [h4, hk, e5]
    obtain ⟨k, m, rfl⟩ := timing_frame _ t ht
    dsimp only at hk hsim
    subst hk
    subst hsim
    refine ⟨report (update_time_avg_stats
      { initializeSim s0 with next_event_type := 5, sim_time := s0.time_end }), ?_, rfl, rfl, ?_⟩
    · unfold main_loop_body
      rw [ht]
      simp [dispatch, update_time_avg_stats]
    · simp [report, report_divisions, update_time_avg_stats, initializeSim_eq, IDLE]

/-- Witness for C14 (amended): the replication from `shortRunStart`, where the
first arrival is due at 1 and the run ends at 1/2. -/
theorem report_unguarded_witness :
    (shortRunStart.num_events = 5 ∧ shortRunStart.time_end < TIME_LIMIT ∧
      shortRunStart.time_end < -shortRunStart.mean_interarrival * shortRunStart.log_lcgrand 0) ∧
    ∃ u, main_loop_body (initializeSim shortRunStart) = .ok u ∧ u.next_event_type = 5 ∧
      u.num_custs_delayed = 0 ∧
      report_divisions u =
        [(0, 0), (0, 0), (0, shortRunStart.time_end), (0, shortRunStart.time_end),
         (0, shortRunStart.time_end), (0, shortRunStart.time_end)] := by
  have h1 : shortRunStart.time_end < TIME_LIMIT := by
    norm_num [shortRunStart, exampleStart, TIME_LIMIT]
  have h2 : shortRunStart.time_end <
      -shortRunStart.mean_interarrival * shortRunStart.log_lcgrand 0 := by
    norm_num [shortRunStart, exampleStart]
  exact ⟨⟨rfl, h1, h2⟩, (report_unguarded shortRunStart rfl h1 h2).2⟩

/-! ## C15 -/

/-- The loop of `main` stops after the pass whose event is EndOfRun, whatever
bound on the passes is left. -/
theorem run_loop_stops (n : Nat) (s u : State) (h : main_loop_body s = .ok u)
    (h5 : u.next_event_type = 5) : run_loop (n + 1) s = some (.ok u) := by
  rw [run_loop, h]
  simp [h5]

/-- The loop of `main` goes on after a pass whose event is not EndOfRun. -/
theorem run_loop_continues (n : Nat) (s u : State) (h : main_loop_body s = .ok u)
    (h5 : u.next_event_type ≠ 5) : run_loop (n + 1) s = run_loop n u := by
  rw [run_loop, h]
  simp [h5]

/-- C15: in a replication with `0 < time_end < 1.0e+29`, at every loop head
`timing` returns an event whose time is at most `time_end`; it is not the
EndOfRun event as long as an arrival or a departure is scheduled at or before
`time_end` (so one scheduled at exactly `time_end` is handled first); and when
it is the EndOfRun event, `sim_time` equals `time_end`, the loop stops after
this pass, and `report` divides the four area accumulators by `time_end`. -/
theorem fixed_run_length (s0 s : State) (_h0 : 0 < s0.time_end)
    (h1 : s0.time_end < TIME_LIMIT) (hs : LoopHead s0 s) :
    ∃ t, timing s = .ok t ∧ t.sim_time ≤ s0.time_end ∧
      (∀ j, 1 ≤ j → j < 5 → s.time_next_event j ≤ s0.time_end → t.next_event_type ≠ 5) ∧
      (t.next_event_type = 5 → t.sim_time = s0.time_end) ∧
      ∀ u, main_loop_body s = .ok u →
        u.sim_time = t.sim_time ∧ u.next_event_type = t.next_event_type ∧
        (u.next_event_type ≠ 5 → LoopHead s0 u ∧ ∀ n, run_loop (n + 1) s = run_loop n u) ∧
        (u.next_event_type = 5 →
          u = report (update_time_avg_stats t) ∧ u.sim_time = s0.time_end ∧
          (∀ n, run_loop (n + 1) s = some (.ok u)) ∧
          report_divisions u =
            [(u.total_of_delays1, (u.num_custs_delayed : ℚ)),
             (u.total_of_delays2, (u.num_custs_delayed : ℚ)),
             (u.area_num_in_q1, s0.time_end), (u.area_num_in_q2, s0.time_end),
             (u.area_server1_status, s0.time_end), (u.area_server2_status, s0.time_end)]) := by
  obtain ⟨_, c2, _⟩ := loopHead_calendar s0 s hs
  have hn : s.num_events = 5 := (loopHead_inv s0 s hs).1.1
  obtain ⟨t, ht⟩ := loopHead_timing_returns s0 s h1 hs
  obtain ⟨_, _, _, h4, _, hmin, hlow⟩ := timing_ok s t hn ht
  have hle : t.sim_time ≤ s0.time_end := by
    rw [← c2]
    exact hmin 5 (by decide) (by decide)
  have h5 : t.next_event_type = 5 → t.sim_time = s0.time_end := by
    intro hk
    rw [h4, hk, c2]
  refine ⟨t, ht, hle, ?_, h5, ?_⟩
  · intro j hj1 hj5 hjle hk
    have := hlow j hj1 (by rw [hk]; exact hj5)
    rw [h5 hk] at this
    exact absurd hjle (not_le.mpr this)
  · intro u hu
    obtain ⟨t', ht', hd, _, _, _, _, _, e1, e2, _⟩ := main_loop_body_parts s u hn hu
    have htt : t' = t := by
      rw [ht] at ht'
      exact (Except.ok.inj ht').symm
    subst htt
    refine ⟨e1, e2, ?_, ?_⟩
    · intro hne
      exact ⟨LoopHead.step hs hu hne, fun n => run_loop_continues n s u hu hne⟩
    · intro hk
      have hu' : u = report (update_time_avg_stats t') := by
        have hk' : (update_time_avg_stats t').next_event_type = 5 := by
          show t'.next_event_type = 5
          rw [← e2]
          exact hk
        unfold dispatch at hd
        rw [hk'] at hd
        simp at hd
        exact hd.symm
      have hsim : u.sim_time = s0.time_end := by
        rw [e1]
        exact h5 (by rw [← e2]; exact hk)
      refine ⟨hu', hsim, fun n => run_loop_stops n s u hu hk, ?_⟩
      simp [report_divisions, hsim]

/-- Witness for C15: the replication from `shortRunStart`, whose first event
is EndOfRun at time 1/2. -/
theorem fixed_run_length_witness :
    (0 < shortRunStart.time_end ∧ shortRunStart.time_end < TIME_LIMIT) ∧
    ∃ t u, timing (initializeSim shortRunStart) = .ok t ∧
      main_loop_body (initializeSim shortRunStart) = .ok u ∧
      t.sim_time ≤ shortRunStart.time_end ∧ u.next_event_type = 5 ∧
      u.sim_time = shortRunStart.time_end ∧
      run_loop 1 (initializeSim shortRunStart) = some (.ok u) := by
  have h0 : 0 < shortRunStart.time_end := by norm_num [shortRunStart, exampleStart]
  have h1 : shortRunStart.time_end < TIME_LIMIT := by
    norm_num [shortRunStart, exampleStart, TIME_LIMIT]
  obtain ⟨t, ht, hle, _, _, hafter⟩ :=
    fixed_run_length shortRunStart (initializeSim shortRunStart) h0 h1 (LoopHead.init rfl)
  obtain ⟨u, hu, hk, _⟩ := short_run_pass
  obtain ⟨_, _, _, hend⟩ := hafter u hu
  obtain ⟨_, hsim, hstop, _⟩ := hend hk
  exact ⟨⟨h0, h1⟩, t, u, ht, hu, hle, hk, hsim, hstop 0⟩

/-! ## C19 -/

/-- The `switch` of `main` on an event type other than 2 (`report` changes no
global, as the case without a handler). -/
theorem dispatch_without_arrival2 (x : State) (h2 : x.next_event_type ≠ 2) :
    dispatch x =
      (if x.next_event_type = 1 then arrive x
       else if x.next_event_type = 3 then depart x
       else if x.next_event_type = 4 then .ok (second_depart x)
       else .ok (report x)) := by
  unfold dispatch
  split_ifs <;> rfl

/-- C19: at every loop head of a replication `time_next_event[2]` is
`1.0e+30`, and it still is after the pass; so `timing` never returns the event
type 2 and the `switch` of `main` runs `arrive`, `depart`, `second_depart` or
`report`, never `second_arrive`.  The only call of `second_arrive` is the one
in `depart` when station 1's queue is not empty, on the state the shift loop
has left, in which `time_arrival1[0]` is the head timestamp that was popped
(the old `time_arrival1[1]`). -/
theorem arrival2_never_dispatched (s0 s : State) (hs : LoopHead s0 s) :
    s.time_next_event 2 = TIME_UNSCHEDULED ∧
    (∀ u, main_loop_body s = .ok u → u.time_next_event 2 = TIME_UNSCHEDULED) ∧
    ∀ t, timing s = .ok t →
      t.next_event_type ≠ 2 ∧
      (t.next_event_type = 1 ∨ t.next_event_type = 3 ∨ t.next_event_type = 4 ∨
        t.next_event_type = 5) ∧
      main_loop_body s =
        (if t.next_event_type = 1 then arrive (update_time_avg_stats t)
         else if t.next_event_type = 3 then depart (update_time_avg_stats t)
         else if t.next_event_type = 4 then .ok (second_depart (update_time_avg_stats t))
         else .ok (report (update_time_avg_stats t))) ∧
      ((update_time_avg_stats t).num_in_q1 = 0 →
        depart (update_time_avg_stats t) =
          .ok { update_time_avg_stats t with
            server1_status := IDLE
            time_next_event :=
              Function.update (update_time_avg_stats t).time_next_event 3 TIME_UNSCHEDULED }) ∧
      ((update_time_avg_stats t).num_in_q1 ≠ 0 →
        depart (update_time_avg_stats t) =
          second_arrive (depart_station1 (update_time_avg_stats t)) ∧
        (depart_station1 (update_time_avg_stats t)).time_arrival1 0 =
          (update_time_avg_stats t).time_arrival1 1) := by
  obtain ⟨_, _, c3⟩ := loopHead_calendar s0 s hs
  obtain ⟨hn, _, hq⟩ := (loopHead_inv s0 s hs).1
  refine ⟨c3, ?_, ?_⟩
  · intro u hu
    obtain ⟨_, _, _, _, _, _, _, _, _, _, _, e2, _⟩ := main_loop_body_parts s u hn hu
    exact e2.trans c3
  · intro t ht
    obtain ⟨k1, k5, _, h4, hlim, _, _⟩ := timing_ok s t hn ht
    have hne : t.next_event_type ≠ 2 := by
      intro hk
      rw [h4, hk, c3] at hlim
      exact absurd hlim (not_lt.mpr (le_of_lt time_limit_lt_unscheduled))
    obtain ⟨k, m, rfl⟩ := timing_frame s t ht
    dsimp only at k1 k5 hne
    have hkind : k = 1 ∨ k = 3 ∨ k = 4 ∨ k = 5 := by omega
    refine ⟨hne, hkind, ?_, fun h0 => depart_empty _ h0, ?_⟩
    · have hbody : main_loop_body s =
          dispatch (update_time_avg_stats { s with next_event_type := k, sim_time := m }) := by
        unfold main_loop_body
        rw [ht]
      rw [hbody]
      exact dispatch_without_arrival2 _ hne
    · intro h0
      refine ⟨depart_nonempty_eq _ h0, ?_⟩
      have hq1 : (1 : Int) ≤ s.num_in_q1 := by
        have h0' : s.num_in_q1 ≠ 0 := h0
        have := hq.1
        omega
      exact shift_loop_head s.time_arrival1 s.num_in_q1 hq1

/-- Witness for C19: the seventh event of the replication from `tandemStart`,
a Departure1 with one customer waiting at station 1 (head timestamp 4). -/
theorem arrival2_never_dispatched_witness :
    ∃ s t, LoopHead tandemStart s ∧ timing s = .ok t ∧ t.next_event_type = 3 ∧
      s.time_next_event 2 = TIME_UNSCHEDULED ∧ t.next_event_type ≠ 2 ∧
      main_loop_body s = depart (update_time_avg_stats t) ∧
      depart (update_time_avg_stats t) =
        second_arrive (depart_station1 (update_time_avg_stats t)) ∧
      (depart_station1 (update_time_avg_stats t)).time_arrival1 0 = 4 := by
  obtain ⟨s, t, hs, ht, hk, _, q1, _, _, a1, _⟩ := tandem_seventh_event
  obtain ⟨c, _, hall⟩ := arrival2_never_dispatched tandemStart s hs
  obtain ⟨hne, _, hbody, _, hdep⟩ := hall t ht
  have hq : (update_time_avg_stats t).num_in_q1 ≠ 0 := by
    obtain ⟨k, m, rfl⟩ := timing_frame s t ht
    show s.num_in_q1 ≠ 0
    rw [q1]
    decide
  obtain ⟨d1, d2⟩ := hdep hq
  have ha : (update_time_avg_stats t).time_arrival1 1 = 4 := by
    obtain ⟨k, m, rfl⟩ := timing_frame s t ht
    exact a1
  rw [hk] at hbody
  exact ⟨s, t, hs, ht, hk, c, hne, hbody, d1, d2.trans ha⟩

/-! ## The station invariant -/

/-- The status `IDLE` is not `BUSY`. -/
theorem idle_ne_busy : IDLE ≠ BUSY := by decide

/-- The handler `arrive` keeps the station invariant. -/
theorem arrive_station (x u : State) (h : arrive x = .ok u) (hi : StationInv x) :
    StationInv u := by
  obtain ⟨b1, b2, i1, i2⟩ := hi
  by_cases hb : x.server1_status = BUSY
  · by_cases hq : x.num_in_q1 + 1 > Q_LIMIT
    · rw [arrive_overflow x hb hq] at h
      exact absurd h (by simp)
    · rw [arrive_busy x hb hq] at h
      rw [← Except.ok.inj h]
      refine ⟨b1, b2, ?_, ?_⟩
      · intro hidle
        exact absurd (hidle.symm.trans hb) idle_ne_busy
      · intro hidle
        obtain ⟨q, e⟩ := i2 hidle
        exact ⟨q, by simp [Function.update_apply, e]⟩
  · rw [arrive_idle x hb] at h
    rw [← Except.ok.inj h]
    refine ⟨Or.inr rfl, b2, ?_, ?_⟩
    · intro hidle
      exact absurd hidle.symm idle_ne_busy
    · intro hidle
      obtain ⟨q, e⟩ := i2 hidle
      exact ⟨q, by simp [Function.update_apply, e]⟩

/-- The handler `second_arrive` keeps the station invariant. -/
theorem second_arrive_station (x u : State) (h : second_arrive x = .ok u)
    (hi : StationInv x) : StationInv u := by
  obtain ⟨b1, b2, i1, i2⟩ := hi
  by_cases hb : x.server2_status = BUSY
  · by_cases hq : x.num_in_q2 + 1 > Q_LIMIT
    · rw [second_arrive_overflow x hb hq] at h
      exact absurd h (by simp)
    · rw [second_arrive_busy x hb hq] at h
      rw [← Except.ok.inj h]
      refine ⟨b1, b2, i1, ?_⟩
      intro hidle
      exact absurd (hidle.symm.trans hb) idle_ne_busy
  · rw [second_arrive_idle x hb] at h
    rw [← Except.ok.inj h]
    refine ⟨b1, Or.inr rfl, ?_, ?_⟩
    · intro hidle
      obtain ⟨q, e⟩ := i1 hidle
      exact ⟨q, by simp [Function.update_apply, e]⟩
    · intro hidle
      exact absurd hidle.symm idle_ne_busy

/-- The handler `depart` keeps the station invariant. -/
theorem depart_station (x u : State) (h : depart x = .ok u) (hi : StationInv x) :
    StationInv u := by
  by_cases h0 : x.num_in_q1 = 0
  · obtain ⟨b1, b2, i1, i2⟩ := hi
    rw [depart_empty x h0] at h
    rw [← Except.ok.inj h]
    refine ⟨Or.inl rfl, b2, ?_, ?_⟩
    · intro _
      exact ⟨h0, by simp⟩
    · intro hidle
      obtain ⟨q, e⟩ := i2 hidle
      exact ⟨q, by simp [Function.update_apply, e]⟩
  · rw [depart_nonempty_eq x h0] at h
    apply second_arrive_station _ u h
    obtain ⟨b1, b2, i1, i2⟩ := hi
    refine ⟨b1, b2, ?_, ?_⟩
    · intro hidle
      exact absurd (i1 hidle).1 h0
    · intro hidle
      obtain ⟨q, e⟩ := i2 hidle
      exact ⟨q, by simp [depart_station1, Function.update_apply, e]⟩

/-- The handler `second_depart` keeps the station invariant. -/
theorem second_depart_station (x : State) (hi : StationInv x) :
    StationInv (second_depart x) := by
  obtain ⟨b1, b2, i1, i2⟩ := hi
  by_cases h0 : x.num_in_q2 = 0
  · rw [second_depart_empty x h0]
    refine ⟨b1, Or.inl rfl, ?_, ?_⟩
    · intro hidle
      obtain ⟨q, e⟩ := i1 hidle
      exact ⟨q, by simp [Function.update_apply, e]⟩
    · intro _
      exact ⟨h0, by simp⟩
  · rw [second_depart_nonempty x h0]
    refine ⟨b1, b2, ?_, ?_⟩
    · intro hidle
      obtain ⟨q, e⟩ := i1 hidle
      exact ⟨q, by simp [Function.update_apply, e]⟩
    · intro hidle
      exact absurd (i2 hidle).1 h0

/-- The `switch` of `main` keeps the station invariant. -/
theorem dispatch_station (x u : State) (h : dispatch x = .ok u) (hi : StationInv x) :
    StationInv u := by
  unfold dispatch at h
  split_ifs at h
  · exact arrive_station x u h hi
  · exact second_arrive_station x u h hi
  · exact depart_station x u h hi
  · rw [← Except.ok.inj h]
    exact second_depart_station x hi
  · rw [← Except.ok.inj h]
    exact hi
  · rw [← Except.ok.inj h]
    exact hi

/-- A pass through the loop body keeps the station invariant. -/
theorem main_loop_body_station (s u : State) (h : main_loop_body s = .ok u)
    (hi : StationInv s) : StationInv u := by
  obtain ⟨t, ht, hd⟩ := main_loop_body_ok s u h
  obtain ⟨k, m, rfl⟩ := timing_frame s t ht
  exact dispatch_station _ u hd hi

/-- The station invariant holds at every loop head of a replication. -/
theorem loopHead_station (s0 s : State) (h : LoopHead s0 s) : StationInv s := by
  induction h with
  | init hn =>
    rw [initializeSim_eq]
    refine ⟨Or.inl rfl, Or.inl rfl, fun _ => ⟨rfl, ?_⟩, fun _ => ⟨rfl, ?_⟩⟩ <;>
      simp [Function.update_apply]
  | step _ hbody _ ih => exact main_loop_body_station _ _ hbody ih

/-! ## C16 -/

/-- C16: at every loop head of a replication, for each station, an idle
server has an empty queue and its departure event is unscheduled
(`time_next_event[3]`, resp. `[4]`, is `1.0e+30`); and a queue that is not
empty has a busy server. -/
theorem station_consistency (s0 s : State) (hs : LoopHead s0 s) :
    (s.server1_status = IDLE →
      s.num_in_q1 = 0 ∧ s.time_next_event 3 = TIME_UNSCHEDULED) ∧
    (s.server2_status = IDLE →
      s.num_in_q2 = 0 ∧ s.time_next_event 4 = TIME_UNSCHEDULED) ∧
    (s.num_in_q1 ≠ 0 → s.server1_status = BUSY) ∧
    (s.num_in_q2 ≠ 0 → s.server2_status = BUSY) := by
  obtain ⟨b1, b2, i1, i2⟩ := loopHead_station s0 s hs
  refine ⟨i1, i2, ?_, ?_⟩
  · intro hq
    rcases b1 with h | h
    · exact absurd (i1 h).1 hq
    · exact h
  · intro hq
    rcases b2 with h | h
    · exact absurd (i2 h).1 hq
    · exact h

/-- Witness for C16: the loop head after six events of the replication from
`tandemStart` (a customer waits at each station, both servers are busy), and
the loop head `initialize` leaves (both servers idle). -/
theorem station_consistency_witness :
    (∃ s, LoopHead tandemStart s ∧ s.num_in_q1 = 1 ∧ s.num_in_q2 = 1 ∧
      s.server1_status = BUSY ∧ s.server2_status = BUSY) ∧
    (LoopHead tandemStart (initializeSim tandemStart) ∧
      (initializeSim tandemStart).server1_status = IDLE ∧
      (initializeSim tandemStart).num_in_q1 = 0 ∧
      (initializeSim tandemStart).time_next_event 3 = TIME_UNSCHEDULED) := by
  obtain ⟨s, hrun, q1, _, q2, _⟩ := tandem_sixth_head
  have hs : LoopHead tandemStart s :=
    loop_passes_loopHead tandemStart 6 _ s (LoopHead.init rfl) hrun
  obtain ⟨_, _, c1, c2⟩ := station_consistency tandemStart s hs
  obtain ⟨d1, _, _, _⟩ :=
    station_consistency tandemStart (initializeSim tandemStart) (LoopHead.init rfl)
  obtain ⟨e1, e2⟩ := d1 rfl
  exact ⟨⟨s, hs, q1, q2, c1 (by rw [q1]; decide), c2 (by rw [q2]; decide)⟩,
    LoopHead.init rfl, rfl, e1, e2⟩

/-! ## The area accumulators -/

/-- One busy-time integral after `update_time_avg_stats`: adding
`status * elapsed` for a status 0 or 1 and a non-negative `elapsed` keeps it
between 0 and the time integrated so far. -/
theorem busy_area_step (a last now : ℚ) (st : Int) (hst : st = IDLE ∨ st = BUSY)
    (h0 : 0 ≤ a) (h1 : a ≤ last) (hle : last ≤ now) :
    0 ≤ a + (st : ℚ) * (now - last) ∧ a + (st : ℚ) * (now - last) ≤ now := by
  rcases hst with h | h
  · rw [h]
    simp only [IDLE, Int.cast_zero, zero_mul, add_zero]
    exact ⟨h0, le_trans h1 hle⟩
  · rw [h]
    simp only [BUSY, Int.cast_one, one_mul]
    constructor <;> linarith

/-- One queue-length integral after `update_time_avg_stats`: adding
`n * elapsed` for `0 ≤ n ≤ Q_LIMIT` and a non-negative `elapsed` keeps it
between 0 and `Q_LIMIT` times the time integrated so far. -/
theorem queue_area_step (a last now : ℚ) (n : Int) (hn0 : 0 ≤ n) (hn1 : n ≤ Q_LIMIT)
    (h0 : 0 ≤ a) (h1 : a ≤ (Q_LIMIT : ℚ) * last) (hle : last ≤ now) :
    0 ≤ a + (n : ℚ) * (now - last) ∧ a + (n : ℚ) * (now - last) ≤ (Q_LIMIT : ℚ) * now := by
  have he : 0 ≤ now - last := by linarith
  have hn0' : (0 : ℚ) ≤ (n : ℚ) := by exact_mod_cast hn0
  have hn1' : (n : ℚ) ≤ (Q_LIMIT : ℚ) := by exact_mod_cast hn1
  have hmul : (n : ℚ) * (now - last) ≤ (Q_LIMIT : ℚ) * (now - last) :=
    mul_le_mul_of_nonneg_right hn1' he
  have hexp : (Q_LIMIT : ℚ) * (now - last) = (Q_LIMIT : ℚ) * now - (Q_LIMIT : ℚ) * last := by
    ring
  have hpos : 0 ≤ (n : ℚ) * (now - last) := mul_nonneg hn0' he
  constructor <;> linarith

/-- The function `update_time_avg_stats` keeps the bounds of the area
accumulators when the clock has not gone back. -/
theorem update_area_bounds (t : State)
    (hb1 : t.server1_status = IDLE ∨ t.server1_status = BUSY)
    (hb2 : t.server2_status = IDLE ∨ t.server2_status = BUSY) (hq : QueueBounds t)
    (hle : t.time_last_event ≤ t.sim_time) (ha : AreaBounds t) :
    AreaBounds (update_time_avg_stats t) := by
  obtain ⟨a0, a1, a2, a3, a4, a5, a6, a7, a8⟩ := ha
  obtain ⟨q1, q2, q3, q4⟩ := hq
  obtain ⟨s1, s2⟩ := busy_area_step _ _ _ _ hb1 a1 a2 hle
  obtain ⟨s3, s4⟩ := busy_area_step _ _ _ _ hb2 a3 a4 hle
  obtain ⟨s5, s6⟩ := queue_area_step _ _ _ _ q1 q2 a5 a6 hle
  obtain ⟨s7, s8⟩ := queue_area_step _ _ _ _ q3 q4 a7 a8 hle
  exact ⟨le_trans a0 hle, s1, s2, s3, s4, s5, s6, s7, s8⟩

/-- A pass through the loop body keeps the bounds of the area accumulators,
given the other invariants at its loop head. -/
theorem main_loop_body_area (s u : State) (h : main_loop_body s = .ok u) (hinv : LoopInv s)
    (hsched : Sched s) (hst : StationInv s) (ha : AreaBounds s) : AreaBounds u := by
  obtain ⟨hn, hlast, hq⟩ := hinv
  obtain ⟨t, ht, hd⟩ := main_loop_body_ok s u h
  obtain ⟨k1, k5, _, h4, _, _, _⟩ := timing_ok s t hn ht
  have hmono : s.sim_time ≤ t.sim_time := by
    rw [h4]
    exact hsched.2.2 _ k1 k5
  obtain ⟨_, _, _, f4, _, _, _, _, f9, f10, f11, f12, _, _⟩ := dispatch_frame _ u hd
  obtain ⟨k, m, rfl⟩ := timing_frame s t ht
  have hx : AreaBounds (update_time_avg_stats { s with next_event_type := k, sim_time := m }) :=
    update_area_bounds _ hst.1 hst.2.1 hq (by show s.time_last_event ≤ m; rw [hlast]; exact hmono)
      ha
  unfold AreaBounds at hx ⊢
  rw [f4, f9, f10, f11, f12]
  exact hx

/-- The bounds of the area accumulators hold at every loop head of a
replication on positive input. -/
theorem loopHead_area (s0 s : State) (hpos : PositiveInput s0) (h : LoopHead s0 s) :
    AreaBounds s := by
  induction h with
  | init hn =>
    rw [initializeSim_eq]
    simp [AreaBounds]
  | step hs hbody _ ih =>
    obtain ⟨hinv, hsched⟩ := loopHead_inv s0 _ hs
    exact main_loop_body_area _ _ hbody hinv (hsched hpos) (loopHead_station s0 _ hs) ih

/-- The bounds against `time_last_event` are bounds against the clock where
the two are equal. -/
theorem AreaBounds.clock {s : State} (ha : AreaBounds s) (h : s.time_last_event = s.sim_time) :
    ClockAreaBounds s := by
  unfold AreaBounds at ha
  rw [h] at ha
  exact ha.2

/-- The replication from `exampleStart` after two events (the arrival at 1
and the departure from station 1 at 3/2): server 1 has been busy for 1/2. -/
theorem example_second_head :
    ∃ s, loop_passes 2 (initializeSim exampleStart) = some s ∧ s.sim_time = 3 / 2 ∧
      s.area_server1_status = 1 / 2 ∧ s.area_server2_status = 0 := by
  norm_num [loop_passes, main_loop_body, dispatch, update_time_avg_stats, arrive, depart,
    second_arrive, second_depart, BUSY, IDLE, Q_LIMIT, timing, timing_loop, initializeSim,
    expon, exampleStart, TIME_LIMIT, TIME_UNSCHEDULED, Function.update_apply]

/-! ## C18 -/

/-- C18: in a replication on positive input, at every loop head and after
every pass through the loop body, `0 ≤ area_server1_status ≤ sim_time`,
`0 ≤ area_server2_status ≤ sim_time` and `0 ≤ area_num_in_q ≤ Q_LIMIT * sim_time`
for both queues; and when the pass handled the EndOfRun event, `sim_time` is
positive and the two utilizations `area_server_status / sim_time` that `report`
computes lie in `[0, 1]`. -/
theorem utilization_bounds (s0 s : State) (hpos : PositiveInput s0) (hs : LoopHead s0 s) :
    ClockAreaBounds s ∧
    ∀ u, main_loop_body s = .ok u →
      ClockAreaBounds u ∧
      (u.next_event_type = 5 →
        0 < u.sim_time ∧
        0 ≤ u.area_server1_status / u.sim_time ∧ u.area_server1_status / u.sim_time ≤ 1 ∧
        0 ≤ u.area_server2_status / u.sim_time ∧ u.area_server2_status / u.sim_time ≤ 1) := by
  obtain ⟨hinv, hsched⟩ := loopHead_inv s0 s hs
  have ha := loopHead_area s0 s hpos hs
  refine ⟨ha.clock hinv.2.1, ?_⟩
  intro u hu
  have hau := main_loop_body_area s u hu hinv (hsched hpos) (loopHead_station s0 s hs) ha
  have hinvu := (main_loop_body_inv s u hu hinv).1
  have hcb := hau.clock hinvu.2.1
  refine ⟨hcb, ?_⟩
  intro hk
  obtain ⟨_, c2, _⟩ := loopHead_calendar s0 s hs
  obtain ⟨t, ht, _, _, _, _, _, _, e1, e2, _⟩ := main_loop_body_parts s u hinv.1 hu
  obtain ⟨_, _, _, h4, _⟩ := timing_ok s t hinv.1 ht
  have hsim : u.sim_time = s0.time_end := by
    rw [e1, h4, ← e2, hk, c2]
  have hpos' : 0 < u.sim_time := by
    rw [hsim]
    exact hpos.2.2.2.1
  obtain ⟨b1, b2, b3, b4, _⟩ := hcb
  exact ⟨hpos', div_nonneg b1 (le_of_lt hpos'), (div_le_one hpos').mpr b2,
    div_nonneg b3 (le_of_lt hpos'), (div_le_one hpos').mpr b4⟩

/-- Witness for C18: the loop head after two events of the replication from
`exampleStart`, where the clock is at 3/2 and server 1 has been busy for
1/2. -/
theorem utilization_bounds_witness :
    PositiveInput exampleStart ∧
    ∃ s, LoopHead exampleStart s ∧ s.sim_time = 3 / 2 ∧ s.area_server1_status = 1 / 2 ∧
      ClockAreaBounds s := by
  obtain ⟨s, hrun, h1, h2, _⟩ := example_second_head
  have hs : LoopHead exampleStart s :=
    loop_passes_loopHead exampleStart 2 _ s (LoopHead.init rfl) hrun
  exact ⟨example_positive, s, hs, h1, h2,
    (utilization_bounds exampleStart s example_positive hs).1⟩

/-! ## The timestamps in the queues -/

/-- The entries `1 .. n - 1` after the shift loop of `depart` on a queue of
`n` customers are the old entries `2 .. n`. -/
theorem depart_shift_entry (a : Int → ℚ) (n i : Int) (h1 : 1 ≤ i) (h2 : i ≤ n - 1) :
    shift_loop a (n - 1 + 1).toNat 0 i = a (i + 1) := by
  rw [shift_loop_apply]
  have hk : ((n - 1 + 1).toNat : Int) = n := by omega
  have hin : (0 : Int) ≤ i ∧ i < 0 + ((n - 1 + 1).toNat : Int) := by
    rw [hk]
    omega
  rw [if_pos hin]

/-- The entries `1 .. n - 1` after the shift loop of `second_depart` on a
queue of `n` customers are the old entries `2 .. n`. -/
theorem second_depart_shift_entry (a : Int → ℚ) (n i : Int) (h1 : 1 ≤ i) (h2 : i ≤ n - 1) :
    shift_loop a (n - 1).toNat 1 i = a (i + 1) := by
  rw [shift_loop_apply]
  have hk : ((n - 1).toNat : Int) = n - 1 := by omega
  have hin : (1 : Int) ≤ i ∧ i < 1 + ((n - 1).toNat : Int) := by
    rw [hk]
    omega
  rw [if_pos hin]

/-- The handler `arrive` keeps the invariant of the queued timestamps. -/
theorem arrive_queue_times (x u : State) (h : arrive x = .ok u) (hi : QueueTimes x) :
    QueueTimes u := by
  obtain ⟨ha, hb, hc, hd, he, t1, t2⟩ := hi
  by_cases hbusy : x.server1_status = BUSY
  · by_cases hq : x.num_in_q1 + 1 > Q_LIMIT
    · rw [arrive_overflow x hbusy hq] at h
      exact absurd h (by simp)
    · rw [arrive_busy x hbusy hq] at h
      rw [← Except.ok.inj h]
      unfold QueueTimes
      dsimp only
      refine ⟨?_, ?_, hc, hd, ?_, t1, t2⟩
      · intro i hi1 hi2
        rw [Function.update_apply]
        split_ifs
        · exact le_refl _
        · exact ha i hi1 (by omega)
      · intro i j hi1 hij hj
        simp only [Function.update_apply]
        split_ifs
        · exact le_refl _
        · exfalso
          omega
        · exact ha i hi1 (by omega)
        · exact hb i j hi1 hij (by omega)
      · intro i j hi1 hi2 hj1 hj2
        rw [Function.update_apply]
        split_ifs
        · exact hc i hi1 hi2
        · exact he i j hi1 hi2 hj1 (by omega)
  · rw [arrive_idle x hbusy] at h
    rw [← Except.ok.inj h]
    unfold QueueTimes
    dsimp only
    exact ⟨ha, hb, hc, hd, he, by linarith, t2⟩

/-- The handler `depart` keeps the invariant of the queued timestamps (the
write into `time_arrival2[num_in_q2]` included). -/
theorem depart_queue_times (x u : State) (h : depart x = .ok u) (hn : 0 ≤ x.num_in_q1)
    (hi : QueueTimes x) : QueueTimes u := by
  obtain ⟨ha, hb, hc, hd, he, t1, t2⟩ := hi
  by_cases h0 : x.num_in_q1 = 0
  · rw [depart_empty x h0] at h
    rw [← Except.ok.inj h]
    exact ⟨ha, hb, hc, hd, he, t1, t2⟩
  · have h1 : 1 ≤ x.num_in_q1 := by omega
    have hh1 : x.time_arrival1 1 ≤ x.sim_time := ha 1 (le_refl _) h1
    have hh2 : ∀ i, 1 ≤ i → i ≤ x.num_in_q2 → x.time_arrival2 i ≤ x.time_arrival1 1 :=
      fun i hi1 hi2 => he i 1 hi1 hi2 (le_refl _) h1
    have hh3 : ∀ j, 1 ≤ j → j ≤ x.num_in_q1 → x.time_arrival1 1 ≤ x.time_arrival1 j :=
      fun j hj1 hj2 => hb 1 j (le_refl _) hj1 hj2
    have hA : ∀ i, 1 ≤ i → i ≤ x.num_in_q1 - 1 →
        shift_loop x.time_arrival1 (x.num_in_q1 - 1 + 1).toNat 0 i ≤ x.sim_time := by
      intro i hi1 hi2
      rw [depart_shift_entry _ _ i hi1 hi2]
      exact ha (i + 1) (by omega) (by omega)
    have hB : ∀ i j, 1 ≤ i → i ≤ j → j ≤ x.num_in_q1 - 1 →
        shift_loop x.time_arrival1 (x.num_in_q1 - 1 + 1).toNat 0 i ≤
          shift_loop x.time_arrival1 (x.num_in_q1 - 1 + 1).toNat 0 j := by
      intro i j hi1 hij hj
      rw [depart_shift_entry _ _ i hi1 (by omega), depart_shift_entry _ _ j (by omega) hj]
      exact hb (i + 1) (j + 1) (by omega) (by omega) (by omega)
    have hT : 0 ≤ x.total_of_delays1 + (x.sim_time - x.time_arrival1 1) := by linarith
    rw [depart_nonempty_eq x h0] at h
    by_cases hbusy : x.server2_status = BUSY
    · by_cases hq : x.num_in_q2 + 1 > Q_LIMIT
      · rw [second_arrive_overflow (depart_station1 x) hbusy hq] at h
        exact absurd h (by simp)
      · rw [second_arrive_busy (depart_station1 x) hbusy hq] at h
        rw [← Except.ok.inj h]
        unfold QueueTimes
        dsimp only [depart_station1]
        rw [shift_loop_head x.time_arrival1 x.num_in_q1 h1]
        refine ⟨hA, hB, ?_, ?_, ?_, hT, t2⟩
        · intro i hi1 hi2
          simp only [Function.update_apply]
          split_ifs
          · exact hh1
          · exact hh1
          · exact hc i hi1 (by omega)
        · intro i j hi1 hij hj
          simp only [Function.update_apply]
          split_ifs <;>
            first
            | exact le_refl _
            | exact hh2 i hi1 (by omega)
            | exact hd i j hi1 hij (by omega)
            | (exfalso; omega)
        · intro i j hi1 hi2 hj1 hj2
          rw [depart_shift_entry _ _ j hj1 hj2]
          simp only [Function.update_apply]
          split_ifs
          · exact hh3 (j + 1) (by omega) (by omega)
          · exact hh3 (j + 1) (by omega) (by omega)
          · exact he i (j + 1) hi1 (by omega) (by omega) (by omega)
    · rw [second_arrive_idle (depart_station1 x) hbusy] at h
      rw [← Except.ok.inj h]
      unfold QueueTimes
      dsimp only [depart_station1]
      refine ⟨hA, hB, ?_, ?_, ?_, hT, by linarith⟩
      · intro i hi1 hi2
        simp only [Function.update_apply]
        split_ifs
        · exact hh1
        · exact hc i hi1 hi2
      · intro i j hi1 hij hj
        simp only [Function.update_apply]
        split_ifs <;>
          first
          | exact le_refl _
          | exact hh2 i hi1 (by omega)
          | exact hd i j hi1 hij (by omega)
          | (exfalso; omega)
      · intro i j hi1 hi2 hj1 hj2
        rw [depart_shift_entry _ _ j hj1 hj2]
        simp only [Function.update_apply]
        split_ifs
        · exact hh3 (j + 1) (by omega) (by omega)
        · exact he i (j + 1) hi1 hi2 (by omega) (by omega)

/-- The handler `second_depart` keeps the invariant of the queued
timestamps. -/
theorem second_depart_queue_times (x : State) (hn : 0 ≤ x.num_in_q2) (hi : QueueTimes x) :
    QueueTimes (second_depart x) := by
  obtain ⟨ha, hb, hc, hd, he, t1, t2⟩ := hi
  by_cases h0 : x.num_in_q2 = 0
  · rw [second_depart_empty x h0]
    exact ⟨ha, hb, hc, hd, he, t1, t2⟩
  · have h1 : 1 ≤ x.num_in_q2 := by omega
    have hh1 : x.time_arrival2 1 ≤ x.sim_time := hc 1 (le_refl _) h1
    rw [second_depart_nonempty x h0]
    unfold QueueTimes
    dsimp only
    refine ⟨ha, hb, ?_, ?_, ?_, t1, by linarith⟩
    · intro i hi1 hi2
      rw [second_depart_shift_entry _ _ i hi1 hi2]
      exact hc (i + 1) (by omega) (by omega)
    · intro i j hi1 hij hj
      rw [second_depart_shift_entry _ _ i hi1 (by omega),
        second_depart_shift_entry _ _ j (by omega) hj]
      exact hd (i + 1) (j + 1) (by omega) (by omega) (by omega)
    · intro i j hi1 hi2 hj1 hj2
      rw [second_depart_shift_entry _ _ i hi1 hi2]
      exact he (i + 1) j (by omega) (by omega) hj1 hj2

/-- The `switch` of `main` keeps the invariant of the queued timestamps on
every event type other than 2. -/
theorem dispatch_queue_times (x u : State) (h : dispatch x = .ok u)
    (h2 : x.next_event_type ≠ 2) (hq : QueueBounds x) (hi : QueueTimes x) : QueueTimes u := by
  rw [dispatch_without_arrival2 x h2] at h
  split_ifs at h
  · exact arrive_queue_times x u h hi
  · exact depart_queue_times x u h hq.1 hi
  · rw [← Except.ok.inj h]
    exact second_depart_queue_times x hq.2.2.1 hi
  · rw [← Except.ok.inj h]
    exact hi

/-- Moving the clock forward keeps the invariant of the queued timestamps. -/
theorem clock_forward_queue_times (s : State) (k : Int) (m : ℚ) (hm : s.sim_time ≤ m)
    (hi : QueueTimes s) :
    QueueTimes (update_time_avg_stats { s with next_event_type := k, sim_time := m }) := by
  obtain ⟨ha, hb, hc, hd, he, t1, t2⟩ := hi
  exact ⟨fun i hi1 hi2 => le_trans (ha i hi1 hi2) hm, hb,
    fun i hi1 hi2 => le_trans (hc i hi1 hi2) hm, hd, he, t1, t2⟩

/-- A pass through the loop body keeps the invariant of the queued
timestamps, given the other invariants at its loop head; the invariant also
holds in the state the handler is dispatched on. -/
theorem main_loop_body_queue_times (s0 s u : State) (hs : LoopHead s0 s)
    (hpos : PositiveInput s0) (h : main_loop_body s = .ok u) (hi : QueueTimes s) :
    ∃ t, timing s = .ok t ∧ dispatch (update_time_avg_stats t) = .ok u ∧
      QueueTimes (update_time_avg_stats t) ∧ QueueTimes u := by
  obtain ⟨⟨hn, _, hq⟩, hsched⟩ := loopHead_inv s0 s hs
  obtain ⟨_, _, c3⟩ := loopHead_calendar s0 s hs
  obtain ⟨t, ht, hd⟩ := main_loop_body_ok s u h
  obtain ⟨k1, k5, _, h4, hlim, _, _⟩ := timing_ok s t hn ht
  have hmono : s.sim_time ≤ t.sim_time := by
    rw [h4]
    exact (hsched hpos).2.2 _ k1 k5
  have hne : t.next_event_type ≠ 2 := by
    intro hk
    rw [h4, hk, c3] at hlim
    exact absurd hlim (not_lt.mpr (le_of_lt time_limit_lt_unscheduled))
  obtain ⟨k, m, rfl⟩ := timing_frame s t ht
  have hx := clock_forward_queue_times s k m hmono hi
  exact ⟨_, ht, hd, hx, dispatch_queue_times _ u hd hne hq hx⟩

/-- The invariant of the queued timestamps holds at every loop head of a
replication on positive input. -/
theorem loopHead_queue_times (s0 s : State) (hpos : PositiveInput s0) (h : LoopHead s0 s) :
    QueueTimes s := by
  induction h with
  | init hn =>
    rw [initializeSim_eq]
    unfold QueueTimes
    dsimp only
    refine ⟨?_, ?_, ?_, ?_, ?_, le_refl _, le_refl _⟩
    · intro i h1 h2
      omega
    · intro i j h1 h2 h3
      omega
    · intro i h1 h2
      omega
    · intro i j h1 h2 h3
      omega
    · intro i j h1 h2 h3 h4
      omega
  | step hs hbody _ ih =>
    obtain ⟨_, _, _, _, hu⟩ := main_loop_body_queue_times s0 _ _ hs hpos hbody ih
    exact hu

/-- The delay `depart` adds to `total_of_delays1` when station 1's queue is
not empty: `sim_time - time_arrival1[1]`. -/
theorem depart_total_of_delays1 (x u : State) (h0 : x.num_in_q1 ≠ 0) (h : depart x = .ok u) :
    u.total_of_delays1 = x.total_of_delays1 + (x.sim_time - x.time_arrival1 1) := by
  rw [depart_nonempty_eq x h0] at h
  by_cases hbusy : (depart_station1 x).server2_status = BUSY
  · by_cases hq : (depart_station1 x).num_in_q2 + 1 > Q_LIMIT
    · rw [second_arrive_overflow _ hbusy hq] at h
      exact absurd h (by simp)
    · rw [second_arrive_busy _ hbusy hq] at h
      rw [← Except.ok.inj h]
      rfl
  · rw [second_arrive_idle _ hbusy] at h
    rw [← Except.ok.inj h]
    rfl

/-- The input `tandemStart` is positive. -/
theorem tandem_positive : PositiveInput tandemStart := by
  refine ⟨?_, ?_, ?_, ?_, ?_⟩
  · norm_num [tandemStart, exampleStart]
  · norm_num [tandemStart, exampleStart]
  · norm_num [tandemStart, exampleStart]
  · norm_num [tandemStart, exampleStart]
  · intro n
    simp only [tandemStart]
    split_ifs <;> norm_num

/-- The seventh pass of the replication from `tandemStart` returns: it is the
call of `depart` on the state `update_time_avg_stats` leaves at time 13. -/
theorem tandem_seventh_pass :
    ∃ s t u, LoopHead tandemStart s ∧ timing s = .ok t ∧ t.next_event_type = 3 ∧
      main_loop_body s = .ok u ∧ depart (update_time_avg_stats t) = .ok u ∧
      (update_time_avg_stats t).sim_time = 13 ∧
      (update_time_avg_stats t).num_in_q1 = 1 ∧
      (update_time_avg_stats t).time_arrival1 1 = 4 := by
  obtain ⟨s, t, hs, ht, hk, htime, q1, b2, q2, a1, _⟩ := tandem_seventh_event
  have hbody : main_loop_body s = dispatch (update_time_avg_stats t) := by
    unfold main_loop_body
    rw [ht]
  have hdisp : dispatch (update_time_avg_stats t) = depart (update_time_avg_stats t) := by
    have hne : (update_time_avg_stats t).next_event_type ≠ 2 := by
      show t.next_event_type ≠ 2
      rw [hk]
      decide
    have hk' : (update_time_avg_stats t).next_event_type = 3 := hk
    rw [dispatch_without_arrival2 _ hne, hk']
    rfl
  obtain ⟨k, m, rfl⟩ := timing_frame s t ht
  obtain ⟨u, hu, _⟩ := depart_station2_queue
    (update_time_avg_stats { s with next_event_type := k, sim_time := m })
    (by show 1 ≤ s.num_in_q1; omega) b2 (by show s.num_in_q2 < Q_LIMIT; rw [q2]; decide)
  exact ⟨s, _, u, hs, ht, hk, (hbody.trans hdisp).trans hu, hu, htime, q1, a1⟩

/-! ## C17 -/

/-- C17: in a replication on positive input, at every loop head, in the state
every handler is dispatched on and after every pass through the loop body,
each timestamp in `time_arrival1[1 .. num_in_q1]` and in
`time_arrival2[1 .. num_in_q2]` is at most `sim_time`, each queue is in
non-decreasing order from head to tail, and both delay totals are non-negative
(the invariant `QueueTimes`); the delay `sim_time - time_arrival1[1]` that
`depart` adds and the delay `sim_time - time_arrival2[1]` that `second_depart`
adds are non-negative. -/
theorem nonnegative_delays (s0 s : State) (hpos : PositiveInput s0) (hs : LoopHead s0 s) :
    QueueTimes s ∧
    ∀ u, main_loop_body s = .ok u →
      ∃ t, timing s = .ok t ∧ dispatch (update_time_avg_stats t) = .ok u ∧
        QueueTimes (update_time_avg_stats t) ∧ QueueTimes u ∧
        (t.next_event_type = 3 → (update_time_avg_stats t).num_in_q1 ≠ 0 →
          u.total_of_delays1 =
            (update_time_avg_stats t).total_of_delays1 +
              ((update_time_avg_stats t).sim_time - (update_time_avg_stats t).time_arrival1 1) ∧
          0 ≤ (update_time_avg_stats t).sim_time - (update_time_avg_stats t).time_arrival1 1) ∧
        (t.next_event_type = 4 → (update_time_avg_stats t).num_in_q2 ≠ 0 →
          u.total_of_delays2 =
            (update_time_avg_stats t).total_of_delays2 +
              ((update_time_avg_stats t).sim_time - (update_time_avg_stats t).time_arrival2 1) ∧
          0 ≤ (update_time_avg_stats t).sim_time - (update_time_avg_stats t).time_arrival2 1) := by
  have hi := loopHead_queue_times s0 s hpos hs
  refine ⟨hi, ?_⟩
  intro u hu
  obtain ⟨t, ht, hd, hx, hqu⟩ := main_loop_body_queue_times s0 s u hs hpos hu hi
  obtain ⟨hn, _, hq⟩ := (loopHead_inv s0 s hs).1
  have hqx : QueueBounds (update_time_avg_stats t) := by
    obtain ⟨k, m, rfl⟩ := timing_frame s t ht
    exact hq
  refine ⟨t, ht, hd, hx, hqu, ?_, ?_⟩
  · intro hk h0
    have hne : (update_time_avg_stats t).next_event_type ≠ 2 := by
      show t.next_event_type ≠ 2
      rw [hk]
      decide
    have hk' : (update_time_avg_stats t).next_event_type = 3 := hk
    have hdep : depart (update_time_avg_stats t) = .ok u := by
      rw [dispatch_without_arrival2 _ hne, hk'] at hd
      exact hd
    refine ⟨depart_total_of_delays1 _ u h0 hdep, ?_⟩
    have := hx.1 1 (le_refl _) (by have := hqx.1; omega)
    linarith
  · intro hk h0
    have hne : (update_time_avg_stats t).next_event_type ≠ 2 := by
      show t.next_event_type ≠ 2
      rw [hk]
      decide
    have hk' : (update_time_avg_stats t).next_event_type = 4 := hk
    have hdep : second_depart (update_time_avg_stats t) = u := by
      rw [dispatch_without_arrival2 _ hne, hk'] at hd
      exact Except.ok.inj hd
    constructor
    · rw [← hdep, second_depart_nonempty _ h0]
    · have := hx.2.2.1 1 (le_refl _) (by have := hqx.2.2.1; omega)
      linarith

/-- Witness for C17: the seventh pass of the replication from `tandemStart`, a
Departure1 at time 13 that takes the customer who arrived at 4 into service:
the delay added is 9. -/
theorem nonnegative_delays_witness :
    PositiveInput tandemStart ∧
    ∃ s t u, LoopHead tandemStart s ∧ timing s = .ok t ∧ main_loop_body s = .ok u ∧
      QueueTimes s ∧ QueueTimes u ∧
      u.total_of_delays1 = (update_time_avg_stats t).total_of_delays1 + (13 - 4) := by
  obtain ⟨s, t, u, hs, ht, hk, hu, _, x1, x2, x3⟩ := tandem_seventh_pass
  obtain ⟨hi, hall⟩ := nonnegative_delays tandemStart s tandem_positive hs
  obtain ⟨t', ht', _, _, hqu, hdel, _⟩ := hall u hu
  have htt : t' = t := by
    rw [ht] at ht'
    exact (Except.ok.inj ht').symm
  subst htt
  obtain ⟨d1, _⟩ := hdel hk (by rw [x2]; decide)
  rw [x1, x3] at d1
  exact ⟨tandem_positive, s, t', u, hs, ht, hu, hi, hqu, d1⟩

/-! ## The array accesses -/

/-- The accesses of a shift loop of `k` iterations from index `i` are to the
one array, at indices in `i .. i + k`. -/
theorem shift_accesses_range (arr : ArrayName) (k : Nat) :
    ∀ (i : Int) (a : ArrayName × Int), a ∈ shift_accesses arr k i →
      a.1 = arr ∧ i ≤ a.2 ∧ a.2 ≤ i + k ∧ 1 ≤ k := by
  induction k with
  | zero =>
    intro i a ha
    simp [shift_accesses] at ha
  | succ k ih =>
    intro i a ha
    simp only [shift_accesses, List.mem_cons] at ha
    rcases ha with h | h | h
    · rw [h]
      refine ⟨rfl, le_refl _, ?_, by omega⟩
      push_cast
      omega
    · rw [h]
      refine ⟨rfl, by show i ≤ i + 1; omega, ?_, by omega⟩
      push_cast
      show i + 1 ≤ i + (↑k + 1)
      omega
    · obtain ⟨h1, h2, h3, _⟩ := ih (i + 1) a h
      refine ⟨h1, by omega, ?_, by omega⟩
      push_cast
      omega

/-- The accesses of `second_arrive` are in range when `0 ≤ num_in_q2`. -/
theorem second_arrive_accesses_range (s : State) (h0 : 0 ≤ s.num_in_q2) :
    ∀ a ∈ second_arrive_accesses s, InRange a := by
  intro a ha
  unfold second_arrive_accesses at ha
  split_ifs at ha with hb hq
  · simp at ha
  · simp only [List.mem_cons, List.mem_singleton, List.not_mem_nil, or_false] at ha
    rcases ha with h | h
    · rw [h]
      exact ⟨by show 0 ≤ s.num_in_q2 + 1; omega, by show s.num_in_q2 + 1 ≤ Q_LIMIT; omega⟩
    · rw [h]
      exact ⟨le_refl _, by decide⟩
  · simp only [List.mem_singleton] at ha
    rw [ha]
    exact ⟨by decide, by decide⟩

/-! ## C20 -/

/-- C20: in every state with `0 ≤ num_in_q1 ≤ Q_LIMIT` and
`0 ≤ num_in_q2 ≤ Q_LIMIT` (and `num_events = 5`, as `main` sets it), every
access of `time_arrival1` and `time_arrival2` by `arrive`, `second_arrive`,
`depart` and `second_depart` is at an index in `0 .. Q_LIMIT` (the reads at
`i + 1` in the shift loops and the write `time_arrival2[num_in_q2]` of `depart`
included), and every access of `time_next_event` by `timing` and the handlers
is at an index in `1 .. 5`. -/
theorem index_safety (s : State) (hq : QueueBounds s) (hn : s.num_events = 5) :
    ∀ a, a ∈ timing_accesses s ++ arrive_accesses s ++ second_arrive_accesses s ++
        depart_accesses s ++ second_depart_accesses s → InRange a := by
  obtain ⟨q1, q2, q3, q4⟩ := hq
  have hQ : (1 : Int) ≤ Q_LIMIT := by decide
  intro a ha
  simp only [List.mem_append] at ha
  rcases ha with (((ha | ha) | ha) | ha) | ha
  · unfold timing_accesses at ha
    have h5 : s.num_events.toNat = 5 := by rw [hn]; rfl
    rw [h5] at ha
    simp only [List.mem_map, List.mem_range] at ha
    obtain ⟨k, hk, rfl⟩ := ha
    exact ⟨by show (1 : Int) ≤ Int.ofNat k + 1; simp only [Int.ofNat_eq_coe]; omega,
      by show Int.ofNat k + 1 ≤ 5; simp only [Int.ofNat_eq_coe]; omega⟩
  · unfold arrive_accesses at ha
    simp only [List.mem_cons] at ha
    rcases ha with h | ha
    · rw [h]
      exact ⟨by decide, by decide⟩
    · split_ifs at ha with hb hov
      · simp at ha
      · simp only [List.mem_singleton] at ha
        rw [ha]
        exact ⟨by show 0 ≤ s.num_in_q1 + 1; omega, by show s.num_in_q1 + 1 ≤ Q_LIMIT; omega⟩
      · simp only [List.mem_singleton] at ha
        rw [ha]
        exact ⟨by decide, by decide⟩
  · exact second_arrive_accesses_range s q3 a ha
  · unfold depart_accesses at ha
    split_ifs at ha with h0
    · simp only [List.mem_singleton] at ha
      rw [ha]
      exact ⟨by decide, by decide⟩
    · simp only [List.mem_append, List.mem_cons, List.mem_singleton, List.not_mem_nil,
        or_false] at ha
      rcases ha with ((h | h | h | h) | h) | h
      · rw [h]
        exact ⟨by decide, hQ⟩
      · rw [h]
        exact ⟨q3, q4⟩
      · rw [h]
        exact ⟨by decide, hQ⟩
      · rw [h]
        exact ⟨by decide, by decide⟩
      · obtain ⟨e1, e2, e3, _⟩ := shift_accesses_range _ _ _ a h
        have hk : ((s.num_in_q1 - 1 + 1).toNat : Int) = s.num_in_q1 := by omega
        rw [hk] at e3
        unfold InRange
        rw [e1]
        exact ⟨e2, by omega⟩
      · exact second_arrive_accesses_range (depart_station1 s) q3 a h
  · unfold second_depart_accesses at ha
    split_ifs at ha with h0
    · simp only [List.mem_singleton] at ha
      rw [ha]
      exact ⟨by decide, by decide⟩
    · simp only [List.mem_append, List.mem_cons, List.mem_singleton, List.not_mem_nil,
        or_false] at ha
      rcases ha with (h | h) | h
      · rw [h]
        exact ⟨by decide, hQ⟩
      · rw [h]
        exact ⟨by decide, by decide⟩
      · obtain ⟨e1, e2, e3, _⟩ := shift_accesses_range _ _ _ a h
        have hk : ((s.num_in_q2 - 1).toNat : Int) = s.num_in_q2 - 1 := by omega
        rw [hk] at e3
        unfold InRange
        rw [e1]
        exact ⟨by omega, by omega⟩

/-- Witness for C20: a Departure1 with one customer waiting at each station;
the accesses of `depart` there are listed in full. -/
theorem index_safety_witness :
    (QueueBounds bothQueuedState ∧ bothQueuedState.num_events = 5) ∧
    depart_accesses bothQueuedState =
      [(ArrayName.time_arrival1, 1), (ArrayName.time_arrival2, 1),
       (ArrayName.time_arrival1, 1), (ArrayName.time_next_event, 3),
       (ArrayName.time_arrival1, 0), (ArrayName.time_arrival1, 1),
       (ArrayName.time_arrival2, 2), (ArrayName.time_arrival1, 0)] ∧
    ∀ a, a ∈ timing_accesses bothQueuedState ++ arrive_accesses bothQueuedState ++
        second_arrive_accesses bothQueuedState ++ depart_accesses bothQueuedState ++
        second_depart_accesses bothQueuedState → InRange a := by
  have hq : QueueBounds bothQueuedState := ⟨by decide, by decide, by decide, by decide⟩
  refine ⟨⟨hq, rfl⟩, ?_, index_safety bothQueuedState hq rfl⟩
  decide

/-! ## Leftover contents do not matter -/

/-- The scan of `timing` reads the scanned entries only. -/
theorem timing_loop_congr (tne e : Int → ℚ) (k : Nat) :
    ∀ (i : Int) (acc : ℚ × Int), (∀ j, i ≤ j → j < i + k → tne j = e j) →
      timing_loop tne k i acc = timing_loop e k i acc := by
  induction k with
  | zero =>
    intro i acc _
    rfl
  | succ k ih =>
    intro i acc h
    have hi : tne i = e i := h i (le_refl _) (by push_cast; omega)
    rw [timing_loop, timing_loop, hi]
    apply ih
    intro j hj1 hj2
    exact h j (by omega) (by push_cast; omega)

/-- States related by `LeftoverArrays` are related by `Leftover`. -/
theorem LeftoverArrays.leftover {s s' : State} (h : LeftoverArrays s s') : Leftover s s' := by
  obtain ⟨a1, a2, e, h1, h2⟩ := h
  exact ⟨_, a1, a2, e, h1, h2⟩

/-- States related by `LeftoverArrays` have the same final values and the same
event type. -/
theorem LeftoverArrays.values {s s' : State} (h : LeftoverArrays s s') :
    final_values s' = final_values s ∧ s'.next_event_type = s.next_event_type := by
  obtain ⟨a1, a2, e, rfl, _⟩ := h
  exact ⟨rfl, rfl⟩

/-- The function `timing` stops or returns alike on states related by
`Leftover`. -/
theorem timing_leftover (s s' : State) (h : Leftover s s') (hn : s.num_events = 5) :
    SameOutcome (timing s) (timing s') := by
  obtain ⟨k, a1, a2, e, rfl, hE, hA1, hA2⟩ := h
  have h5 : s.num_events.toNat = 5 := by rw [hn]; rfl
  have h5' : (with_leftover s k a1 a2 e).num_events.toNat = 5 := h5
  have hloop : timing_loop e 5 1 (TIME_LIMIT, 0) =
      timing_loop s.time_next_event 5 1 (TIME_LIMIT, 0) := by
    apply timing_loop_congr
    intro j hj1 hj2
    exact (hE j hj1 (by push_cast at hj2; omega)).symm
  unfold timing
  rw [h5, h5']
  have he : (with_leftover s k a1 a2 e).time_next_event = e := rfl
  rw [he, hloop]
  dsimp only
  split_ifs
  · exact rfl
  · exact ⟨a1, a2, e, rfl, hE, hA1, hA2⟩

/-- The function `update_time_avg_stats` keeps `LeftoverArrays`. -/
theorem update_leftover (t t' : State) (h : LeftoverArrays t t') :
    LeftoverArrays (update_time_avg_stats t) (update_time_avg_stats t') := by
  obtain ⟨a1, a2, e, rfl, hA⟩ := h
  exact ⟨a1, a2, e, rfl, hA⟩

/-- The handler `arrive` stops or returns alike on states related by
`LeftoverArrays`. -/
theorem arrive_leftover (x x' : State) (h : LeftoverArrays x x') :
    SameOutcome (arrive x) (arrive x') := by
  obtain ⟨a1, a2, e, rfl, hE, hA1, hA2⟩ := h
  by_cases hb : x.server1_status = BUSY
  · by_cases hq : x.num_in_q1 + 1 > Q_LIMIT
    · rw [arrive_overflow x hb hq,
        arrive_overflow (with_leftover x x.next_event_type a1 a2 e) hb hq]
      exact rfl
    · rw [arrive_busy x hb hq, arrive_busy (with_leftover x x.next_event_type a1 a2 e) hb hq]
      refine ⟨Function.update a1 (x.num_in_q1 + 1) x.sim_time, a2,
        Function.update e 1 (x.sim_time + -x.mean_interarrival * x.log_lcgrand 0), rfl,
        ?_, ?_, hA2⟩
      · intro i hi1 hi2
        show Function.update x.time_next_event 1 _ i = Function.update e 1 _ i
        simp only [Function.update_apply]
        split_ifs
        · rfl
        · exact hE i hi1 hi2
      · intro i hi1 hi2
        have hi2' : i ≤ x.num_in_q1 + 1 := hi2
        show Function.update x.time_arrival1 _ _ i = Function.update a1 _ _ i
        simp only [Function.update_apply]
        split_ifs
        · rfl
        · exact hA1 i hi1 (by omega)
  · rw [arrive_idle x hb, arrive_idle (with_leftover x x.next_event_type a1 a2 e) hb]
    refine ⟨a1, a2,
      Function.update
        (Function.update e 1 (x.sim_time + -x.mean_interarrival * x.log_lcgrand 0))
        3 (x.sim_time + -x.mean_service1 * x.log_lcgrand 1), rfl, ?_, hA1, hA2⟩
    intro i hi1 hi2
    show Function.update (Function.update x.time_next_event 1 _) 3 _ i =
      Function.update (Function.update e 1 _) 3 _ i
    simp only [Function.update_apply]
    split_ifs
    · rfl
    · rfl
    · exact hE i hi1 hi2

/-- The handler `second_arrive` stops or returns alike on states related by
`LeftoverArrays` that also hold the same `time_arrival1[0]`. -/
theorem second_arrive_leftover (x x' : State) (h : LeftoverArrays x x')
    (h0 : x'.time_arrival1 0 = x.time_arrival1 0) :
    SameOutcome (second_arrive x) (second_arrive x') := by
  obtain ⟨a1, a2, e, rfl, hE, hA1, hA2⟩ := h
  have h0' : a1 0 = x.time_arrival1 0 := h0
  by_cases hb : x.server2_status = BUSY
  · by_cases hq : x.num_in_q2 + 1 > Q_LIMIT
    · rw [second_arrive_overflow x hb hq,
        second_arrive_overflow (with_leftover x x.next_event_type a1 a2 e) hb hq]
      exact rfl
    · rw [second_arrive_busy x hb hq,
        second_arrive_busy (with_leftover x x.next_event_type a1 a2 e) hb hq]
      refine ⟨a1, Function.update a2 (x.num_in_q2 + 1) (a1 0), e, rfl, hE, hA1, ?_⟩
      intro i hi1 hi2
      have hi2' : i ≤ x.num_in_q2 + 1 := hi2
      show Function.update x.time_arrival2 _ _ i = Function.update a2 _ _ i
      simp only [Function.update_apply]
      split_ifs
      · exact h0'.symm
      · exact hA2 i hi1 (by omega)
  · rw [second_arrive_idle x hb,
      second_arrive_idle (with_leftover x x.next_event_type a1 a2 e) hb]
    refine ⟨a1, a2,
      Function.update e 4 (x.sim_time + -x.mean_service2 * x.log_lcgrand 0), rfl, ?_, hA1, hA2⟩
    intro i hi1 hi2
    show Function.update x.time_next_event 4 _ i = Function.update e 4 _ i
    simp only [Function.update_apply]
    split_ifs
    · rfl
    · exact hE i hi1 hi2

/-- The handler `depart` stops or returns alike on states related by
`LeftoverArrays`, for a queue length that is not negative. -/
theorem depart_leftover (x x' : State) (h : LeftoverArrays x x') (hn : 0 ≤ x.num_in_q1) :
    SameOutcome (depart x) (depart x') := by
  obtain ⟨a1, a2, e, rfl, hE, hA1, hA2⟩ := h
  by_cases h0 : x.num_in_q1 = 0
  · rw [depart_empty x h0, depart_empty (with_leftover x x.next_event_type a1 a2 e) h0]
    refine ⟨a1, a2, Function.update e 3 TIME_UNSCHEDULED, rfl, ?_, hA1, hA2⟩
    intro i hi1 hi2
    show Function.update x.time_next_event 3 _ i = Function.update e 3 _ i
    simp only [Function.update_apply]
    split_ifs
    · rfl
    · exact hE i hi1 hi2
  · have h1 : 1 ≤ x.num_in_q1 := by omega
    have h11 : a1 1 = x.time_arrival1 1 := (hA1 1 (le_refl _) h1).symm
    rw [depart_nonempty_eq x h0,
      depart_nonempty_eq (with_leftover x x.next_event_type a1 a2 e) h0]
    apply second_arrive_leftover
    · refine ⟨shift_loop a1 (x.num_in_q1 - 1 + 1).toNat 0,
        Function.update a2 x.num_in_q2 (x.time_arrival1 1),
        Function.update e 3 (x.sim_time + -x.mean_service1 * x.log_lcgrand 0), ?_, ?_, ?_, ?_⟩
      · unfold depart_station1 with_leftover
        dsimp only
        rw [h11]
      · intro i hi1 hi2
        show Function.update x.time_next_event 3 _ i = Function.update e 3 _ i
        simp only [Function.update_apply]
        split_ifs
        · rfl
        · exact hE i hi1 hi2
      · intro i hi1 hi2
        have hi2' : i ≤ x.num_in_q1 - 1 := hi2
        show shift_loop x.time_arrival1 (x.num_in_q1 - 1 + 1).toNat 0 i =
          shift_loop a1 (x.num_in_q1 - 1 + 1).toNat 0 i
        rw [depart_shift_entry _ _ i hi1 hi2', depart_shift_entry _ _ i hi1 hi2']
        exact hA1 (i + 1) (by omega) (by omega)
      · intro i hi1 hi2
        have hi2' : i ≤ x.num_in_q2 := hi2
        show Function.update x.time_arrival2 _ _ i = Function.update a2 _ _ i
        simp only [Function.update_apply]
        split_ifs
        · rfl
        · exact hA2 i hi1 hi2'
    · show shift_loop a1 (x.num_in_q1 - 1 + 1).toNat 0 0 =
        shift_loop x.time_arrival1 (x.num_in_q1 - 1 + 1).toNat 0 0
      rw [shift_loop_head a1 _ h1, shift_loop_head x.time_arrival1 _ h1]
      exact h11

/-- The handler `second_depart` returns alike on states related by
`LeftoverArrays`, for a queue length that is not negative. -/
theorem second_depart_leftover (x x' : State) (h : LeftoverArrays x x')
    (hn : 0 ≤ x.num_in_q2) : LeftoverArrays (second_depart x) (second_depart x') := by
  obtain ⟨a1, a2, e, rfl, hE, hA1, hA2⟩ := h
  by_cases h0 : x.num_in_q2 = 0
  · rw [second_depart_empty x h0,
      second_depart_empty (with_leftover x x.next_event_type a1 a2 e) h0]
    refine ⟨a1, a2, Function.update e 4 TIME_UNSCHEDULED, rfl, ?_, hA1, hA2⟩
    intro i hi1 hi2
    show Function.update x.time_next_event 4 _ i = Function.update e 4 _ i
    simp only [Function.update_apply]
    split_ifs
    · rfl
    · exact hE i hi1 hi2
  · have h1 : 1 ≤ x.num_in_q2 := by omega
    have h11 : a2 1 = x.time_arrival2 1 := (hA2 1 (le_refl _) h1).symm
    rw [second_depart_nonempty x h0,
      second_depart_nonempty (with_leftover x x.next_event_type a1 a2 e) h0]
    refine ⟨a1, shift_loop a2 (x.num_in_q2 - 1).toNat 1,
      Function.update e 4 (x.sim_time + -x.mean_service2 * x.log_lcgrand 0), ?_, ?_, hA1, ?_⟩
    · unfold with_leftover
      dsimp only
      rw [h11]
    · intro i hi1 hi2
      show Function.update x.time_next_event 4 _ i = Function.update e 4 _ i
      simp only [Function.update_apply]
      split_ifs
      · rfl
      · exact hE i hi1 hi2
    · intro i hi1 hi2
      have hi2' : i ≤ x.num_in_q2 - 1 := hi2
      show shift_loop x.time_arrival2 (x.num_in_q2 - 1).toNat 1 i =
        shift_loop a2 (x.num_in_q2 - 1).toNat 1 i
      rw [second_depart_shift_entry _ _ i hi1 hi2', second_depart_shift_entry _ _ i hi1 hi2']
      exact hA2 (i + 1) (by omega) (by omega)

/-- The `switch` of `main` stops or returns alike on states related by
`LeftoverArrays`, on every event type other than 2. -/
theorem dispatch_leftover (x x' : State) (h : LeftoverArrays x x')
    (h2 : x.next_event_type ≠ 2) (hq : QueueBounds x) :
    SameOutcome (dispatch x) (dispatch x') := by
  have hnet : x'.next_event_type = x.next_event_type := h.values.2
  rw [dispatch_without_arrival2 x h2, dispatch_without_arrival2 x' (by rw [hnet]; exact h2),
    hnet]
  split_ifs
  · exact arrive_leftover x x' h
  · exact depart_leftover x x' h hq.1
  · exact second_depart_leftover x x' h hq.2.2.1
  · exact h

/-- A pass through the loop body stops or returns alike on states related by
`Leftover`, at a loop head with Arrival2 unscheduled. -/
theorem main_loop_body_leftover (s s' : State) (h : Leftover s s') (hinv : LoopInv s)
    (hc : s.time_next_event 2 = TIME_UNSCHEDULED) :
    SameOutcome (main_loop_body s) (main_loop_body s') := by
  obtain ⟨hn, _, hq⟩ := hinv
  have ht := timing_leftover s s' h hn
  unfold main_loop_body
  cases hts : timing s with
  | error err =>
    cases hts' : timing s' with
    | error err' =>
      rw [hts, hts'] at ht
      exact ht
    | ok t' =>
      rw [hts, hts'] at ht
      exact absurd ht (by simp [SameOutcome])
  | ok t =>
    cases hts' : timing s' with
    | error err' =>
      rw [hts, hts'] at ht
      exact absurd ht (by simp [SameOutcome])
    | ok t' =>
      rw [hts, hts'] at ht
      have hl : LeftoverArrays t t' := ht
      obtain ⟨_, _, _, h4, hlim, _, _⟩ := timing_ok s t hn hts
      have hne : (update_time_avg_stats t).next_event_type ≠ 2 := by
        show t.next_event_type ≠ 2
        intro hk
        rw [h4, hk, hc] at hlim
        exact absurd hlim (not_lt.mpr (le_of_lt time_limit_lt_unscheduled))
      have hqx : QueueBounds (update_time_avg_stats t) := by
        obtain ⟨k, m, rfl⟩ := timing_frame s t hts
        exact hq
      exact dispatch_leftover _ _ (update_leftover t t' hl) hne hqx

/-- The loop of `main` ends alike, with the same final values, from states
related by `Leftover`. -/
theorem run_loop_leftover (n : Nat) :
    ∀ s s', Leftover s s' → LoopInv s → s.time_next_event 2 = TIME_UNSCHEDULED →
      (run_loop n s').map (Except.map final_values) =
        (run_loop n s).map (Except.map final_values) := by
  induction n with
  | zero =>
    intro s s' _ _ _
    rfl
  | succ n ih =>
    intro s s' h hinv hc
    have hb := main_loop_body_leftover s s' h hinv hc
    rw [run_loop, run_loop]
    cases hs : main_loop_body s with
    | error err =>
      cases hs' : main_loop_body s' with
      | error err' =>
        rw [hs, hs'] at hb
        have : err = err' := hb
        rw [this]
      | ok u' =>
        rw [hs, hs'] at hb
        exact absurd hb (by simp [SameOutcome])
    | ok u =>
      cases hs' : main_loop_body s' with
      | error err' =>
        rw [hs, hs'] at hb
        exact absurd hb (by simp [SameOutcome])
      | ok u' =>
        rw [hs, hs'] at hb
        have hl : LeftoverArrays u u' := hb
        obtain ⟨hv, hnet⟩ := hl.values
        dsimp only
        rw [hnet]
        split_ifs with h5
        · obtain ⟨_, _, _, _, _, _, _, _, _, _, _, e2, _⟩ :=
            main_loop_body_parts s u hinv.1 hs
          exact ih u u' hl.leftover (main_loop_body_inv s u hs hinv).1 (e2.trans hc)
        · show some (Except.map final_values (Except.ok u')) =
            some (Except.map final_values (Except.ok u))
          simp only [Except.map]
          rw [hv]

/-- The states `initialize` leaves from two states with the same input are
related by `Leftover`. -/
theorem initializeSim_leftover (s0 s0' : State) (h : SameInput s0 s0') :
    Leftover (initializeSim s0) (initializeSim s0') := by
  obtain ⟨h1, h2, h3, h4, h5, h6, h7⟩ := h
  refine ⟨s0'.next_event_type, s0'.time_arrival1, s0'.time_arrival2,
    (initializeSim s0').time_next_event, ?_, ?_, ?_, ?_⟩
  · rw [initializeSim_eq, initializeSim_eq]
    unfold with_leftover
    dsimp only
    rw [h1, h2, h3, h4, h5, h6, h7]
  · intro i hi1 hi2
    rw [initializeSim_eq, initializeSim_eq]
    dsimp only
    rw [h3, h6, h7]
    simp only [Function.update_apply]
    split_ifs <;> first | rfl | omega
  · intro i hi1 hi2
    have : i ≤ 0 := hi2
    omega
  · intro i hi1 hi2
    have : i ≤ 0 := hi2
    omega

/-- The replication from `twoMinuteStart`: arrival at 1, departure from
station 1 at 3/2, arrival at 2 (handled before the end of the run, also at
2), then the EndOfRun event; the loop ends after four passes. -/
theorem two_minute_run :
    ∃ u, replication 4 twoMinuteStart = some (.ok u) ∧ u.sim_time = 2 ∧
      u.num_custs_delayed = 2 ∧ u.area_server1_status = 1 / 2 := by
  norm_num [replication, run_loop, main_loop_body, dispatch, update_time_avg_stats, arrive,
    depart, second_arrive, second_depart, report, BUSY, IDLE, Q_LIMIT, timing, timing_loop,
    initializeSim, expon, exampleStart, twoMinuteStart, TIME_LIMIT, TIME_UNSCHEDULED,
    Function.update_apply]

/-! ## C13 -/

/-- C13: two replications started in any two states with the same four
configuration values and the same sequence of draws (and `num_events = 5`)
end alike for every bound on the number of passes: both outrun the bound, or
both stop with the same error, or both end at the EndOfRun event with the same
`sim_time`, `num_custs_delayed`, `total_of_delays1`, `total_of_delays2` and the
same four area accumulators. -/
theorem replication_deterministic (s0 s0' : State) (h : SameInput s0 s0') (fuel : Nat) :
    (replication fuel s0').map (Except.map final_values) =
      (replication fuel s0).map (Except.map final_values) := by
  have hn : s0.num_events = 5 := h.1
  obtain ⟨hinv, _⟩ := initializeSim_inv s0 hn
  obtain ⟨_, _, c3⟩ := loopHead_calendar s0 _ (LoopHead.init hn)
  exact run_loop_leftover fuel _ _ (initializeSim_leftover s0 s0' h) hinv c3

/-- Witness for C13: the replication from `twoMinuteStart` and the one from
`usedTwoMinuteStart`, a state with the same input and other leftovers, both
end after four passes with the clock at 2 and two delays counted. -/
theorem replication_deterministic_witness :
    SameInput twoMinuteStart usedTwoMinuteStart ∧
    (∃ u, replication 4 twoMinuteStart = some (.ok u) ∧ u.sim_time = 2 ∧
      u.num_custs_delayed = 2) ∧
    (replication 4 usedTwoMinuteStart).map (Except.map final_values) =
      (replication 4 twoMinuteStart).map (Except.map final_values) := by
  have hin : SameInput twoMinuteStart usedTwoMinuteStart :=
    ⟨rfl, rfl, rfl, rfl, rfl, rfl, rfl⟩
  obtain ⟨u, h1, h2, h3, _⟩ := two_minute_run
  exact ⟨hin, ⟨u, h1, h2, h3⟩, replication_deterministic twoMinuteStart usedTwoMinuteStart hin 4⟩

/-! ## C8 -/

/-- The function `second_arrive_exit_state` stops and returns exactly as
`second_arrive` does. -/
theorem second_arrive_exit_state_agrees (s : State) :
    (second_arrive_exit_state s).mapError Prod.fst = second_arrive s := by
  unfold second_arrive_exit_state second_arrive
  dsimp only
  split_ifs <;> rfl

/-- The function `depart_exit_state` stops and returns exactly as `depart`
does. -/
theorem depart_exit_state_agrees (s : State) :
    (depart_exit_state s).mapError Prod.fst = depart s := by
  unfold depart_exit_state depart
  dsimp only
  split_ifs
  · rfl
  · exact second_arrive_exit_state_agrees _

/-- The call `depart_exit_state` with a non-empty station-1 queue is the
bookkeeping `depart_station1` followed by `second_arrive_exit_state`. -/
theorem depart_exit_state_nonempty (s : State) (h : s.num_in_q1 ≠ 0) :
    depart_exit_state s = second_arrive_exit_state (depart_station1 s) := by
  unfold depart_exit_state expon
  dsimp only
  rw [if_neg h]
  rfl

/-- The state in which `second_arrive` ends, returning or at its `exit(2)`,
has everything of station 1 as before the call. -/
theorem second_arrive_end_state (x : State) :
    (end_state (second_arrive_exit_state x)).num_in_q1 = x.num_in_q1 ∧
    (end_state (second_arrive_exit_state x)).time_arrival1 = x.time_arrival1 ∧
    (end_state (second_arrive_exit_state x)).total_of_delays1 = x.total_of_delays1 ∧
    (end_state (second_arrive_exit_state x)).server1_status = x.server1_status ∧
    (end_state (second_arrive_exit_state x)).time_next_event 3 = x.time_next_event 3 ∧
    (end_state (second_arrive_exit_state x)).sim_time = x.sim_time := by
  unfold second_arrive_exit_state expon
  dsimp only
  split_ifs
  · exact ⟨rfl, rfl, rfl, rfl, rfl, rfl⟩
  · exact ⟨rfl, rfl, rfl, rfl, rfl, rfl⟩
  · refine ⟨rfl, rfl, rfl, rfl, ?_, rfl⟩
    simp [end_state, Function.update_apply]

/-- C8: for every state with `1 ≤ num_in_q1 ≤ Q_LIMIT`, whatever the state of
station 2, in the state in which `depart` ends (the state it returns, or the
globals at the `exit(2)` of its call of `second_arrive`, which happens exactly
when station 2 is busy with `num_in_q2 + 1 > Q_LIMIT`) the head of station 1's
queue has been removed: `num_in_q1` is one less, the new entries
`1 .. num_in_q1 - 1` are the old entries `2 .. num_in_q1` in order,
`total_of_delays1` has grown by `sim_time - time_arrival1[1]`, the status of
server 1 is unchanged (it stays busy), and `time_next_event[3]` is `sim_time`
plus the next `expon(mean_service1)` variate. -/
theorem depart_pops_head (s : State) (h1 : 1 ≤ s.num_in_q1) (_h2 : s.num_in_q1 ≤ Q_LIMIT) :
    (depart_exit_state s).mapError Prod.fst = depart s ∧
    (depart s = .error .queue_overflow ↔
      s.server2_status = BUSY ∧ s.num_in_q2 + 1 > Q_LIMIT) ∧
    (∀ t, depart s = .ok t → end_state (depart_exit_state s) = t) ∧
    (end_state (depart_exit_state s)).num_in_q1 = s.num_in_q1 - 1 ∧
    (∀ i, 1 ≤ i → i ≤ s.num_in_q1 - 1 →
      (end_state (depart_exit_state s)).time_arrival1 i = s.time_arrival1 (i + 1)) ∧
    (end_state (depart_exit_state s)).total_of_delays1 =
      s.total_of_delays1 + (s.sim_time - s.time_arrival1 1) ∧
    (end_state (depart_exit_state s)).server1_status = s.server1_status ∧
    (s.server1_status = BUSY → (end_state (depart_exit_state s)).server1_status = BUSY) ∧
    (end_state (depart_exit_state s)).time_next_event 3 =
      s.sim_time + (expon s.mean_service1 s).1 := by
  have hne : s.num_in_q1 ≠ 0 := by omega
  have hagree := depart_exit_state_agrees s
  obtain ⟨e1, e2, e3, e4, e5, _⟩ := second_arrive_end_state (depart_station1 s)
  rw [← depart_exit_state_nonempty s hne] at e1 e2 e3 e4 e5
  refine ⟨hagree, ?_, ?_, e1, ?_, e3, e4, fun hb => e4.trans hb, ?_⟩
  · rw [depart_nonempty_eq s hne]
    constructor
    · intro herr
      by_cases hb : (depart_station1 s).server2_status = BUSY
      · by_cases hq : (depart_station1 s).num_in_q2 + 1 > Q_LIMIT
        · exact ⟨hb, hq⟩
        · rw [second_arrive_busy _ hb hq] at herr
          exact absurd herr (by simp)
      · rw [second_arrive_idle _ hb] at herr
        exact absurd herr (by simp)
    · rintro ⟨hb, hq⟩
      exact second_arrive_overflow (depart_station1 s) hb hq
  · intro t ht
    rw [← hagree] at ht
    cases hd : depart_exit_state s with
    | error p =>
      rw [hd] at ht
      exact absurd ht (by simp [Except.mapError])
    | ok u =>
      rw [hd] at ht
      exact Except.ok.inj ht
  · intro i hi1 hi2
    rw [e2]
    exact depart_shift_entry s.time_arrival1 s.num_in_q1 i hi1 hi2
  · rw [e5]
    simp [depart_station1, expon]

/-- Witness for C8: one customer waiting at station 1 with station 2 busy and
its queue full, where `depart` ends at the `exit(2)` with the head already
removed; and the same with one customer waiting at station 2, where `depart`
returns. -/
theorem depart_pops_head_witness :
    ((1 ≤ fullSecondQueueState.num_in_q1 ∧ fullSecondQueueState.num_in_q1 ≤ Q_LIMIT) ∧
      depart fullSecondQueueState = .error .queue_overflow ∧
      (end_state (depart_exit_state fullSecondQueueState)).num_in_q1 = 0 ∧
      (end_state (depart_exit_state fullSecondQueueState)).total_of_delays1 = 1 ∧
      (end_state (depart_exit_state fullSecondQueueState)).time_next_event 3 = 7 + 1 / 2) ∧
    ((1 ≤ bothQueuedState.num_in_q1 ∧ bothQueuedState.num_in_q1 ≤ Q_LIMIT) ∧
      (∃ t, depart bothQueuedState = .ok t ∧
        end_state (depart_exit_state bothQueuedState) = t) ∧
      (end_state (depart_exit_state bothQueuedState)).num_in_q1 = 0 ∧
      (end_state (depart_exit_state bothQueuedState)).total_of_delays1 = 1) := by
  obtain ⟨_, a2, _, a4, _, a6, _, _, a9⟩ :=
    depart_pops_head fullSecondQueueState (by decide) (by decide)
  obtain ⟨_, _, b3, b4, _, b6, _⟩ :=
    depart_pops_head bothQueuedState (by decide) (by decide)
  have hfull : depart fullSecondQueueState = .error .queue_overflow :=
    a2.mpr ⟨rfl, by decide⟩
  obtain ⟨t, ht, _⟩ := depart_station2_queue bothQueuedState (by decide) rfl (by decide)
  refine ⟨⟨⟨by decide, by decide⟩, hfull, ?_, ?_, ?_⟩,
    ⟨by decide, by decide⟩, ⟨t, ht, b3 t ht⟩, ?_, ?_⟩
  · rw [a4]
    rfl
  · rw [a6]
    norm_num [fullSecondQueueState, bothQueuedState, exampleStart]
  · rw [a9]
    norm_num [fullSecondQueueState, bothQueuedState, exampleStart, expon]
  · rw [b4]
    rfl
  · rw [b6]
    norm_num [bothQueuedState, exampleStart]

end MM2Alt
